import Mathlib

/-!
Verification of the ClarityCheck decision-workflow engine against its
natural-language specification.

The TypeScript sources (src/decision-workflow.ts, src/provider.ts,
src/agent.ts) are shallowly embedded below.  JavaScript strings are
modelled as Lean strings; the handful of JavaScript builtins the code
relies on (Date.parse, the URL constructor, the regular-expression
engine, JSON.parse) are modelled as explicit oracle parameters so that
every theorem quantifies over their behaviour, while all logic written
in the repository itself is translated definition-by-definition.
-/

namespace ClarityCheck

/-! ## JavaScript string primitives -/

/-- Whitespace recognised by the JavaScript trim builtin (the ASCII part,
which is all the repository ever feeds it). -/
def isJsWhitespace (c : Char) : Bool :=
  c == ' ' || c == '\t' || c == '\n' || c == '\r' || c == '\x0b' || c == '\x0c'

/-- Character-list version of String.prototype.trim. -/
def trimChars (l : List Char) : List Char :=
  ((l.dropWhile isJsWhitespace).reverse.dropWhile isJsWhitespace).reverse

/-- Model of the JavaScript value.trim() builtin. -/
def jsTrim (s : String) : String :=
  String.mk (trimChars s.data)

/-- Model of the JavaScript value.toLowerCase() builtin (ASCII case map). -/
def jsToLower (s : String) : String :=
  String.mk (s.data.map Char.toLower)

/-! ## Data model (src/types.ts) -/

/-- DecisionStage from src/types.ts. -/
inductive DecisionStage
  | intake
  | research
  | recommendation
deriving Repr, DecidableEq

/-- The string literal a DecisionStage is stored as. -/
def DecisionStage.toStr : DecisionStage → String
  | .intake => "intake"
  | .research => "research"
  | .recommendation => "recommendation"

/-- Confidence tier used by recommendation and summary records. -/
inductive Confidence
  | low
  | medium
  | high
deriving Repr, DecidableEq

/-- DecisionIntakeState from src/types.ts: optional scalar strings plus a
constraints list. -/
structure DecisionIntakeState where
  goal : Option String := none
  optionsScope : Option String := none
  constraints : List String := []
  timeline : Option String := none
  riskTolerance : Option String := none
  successCriteria : Option String := none
  mustAvoid : Option String := none
deriving Repr, DecidableEq

/-- A TypeScript Partial of DecisionIntakeState, as the spread operator
sees it: each scalar key is either absent (outer none) or present with a
value that may itself be the undefined value (inner none).  The spread
copies present-but-undefined keys, so the two levels must be kept apart. -/
structure IntakePatch where
  goal : Option (Option String) := none
  optionsScope : Option (Option String) := none
  constraints : Option (List String) := none
  timeline : Option (Option String) := none
  riskTolerance : Option (Option String) := none
  successCriteria : Option (Option String) := none
  mustAvoid : Option (Option String) := none
deriving Repr, DecidableEq

/-- The argument shape accepted by normalizeIntake: every field read
through optional chaining, so absent and undefined coincide here. -/
structure RawIntake where
  goal : Option String := none
  optionsScope : Option String := none
  constraints : Option (List String) := none
  timeline : Option String := none
  riskTolerance : Option String := none
  successCriteria : Option String := none
  mustAvoid : Option String := none
deriving Repr, DecidableEq

/-- DecisionResearchState from src/types.ts. -/
structure DecisionResearchState where
  lastResearchAt : Option String := none
  queries : List String := []
deriving Repr, DecidableEq

/-- DecisionRecommendationState from src/types.ts. -/
structure DecisionRecommendationState where
  recommendedOption : String
  confidence : Confidence
  rationale : String
  updatedAt : String
deriving Repr, DecidableEq

/-- DecisionRuntimeState from src/types.ts. -/
structure DecisionRuntimeState where
  stage : DecisionStage
  intake : DecisionIntakeState
  research : DecisionResearchState
  recommendation : Option DecisionRecommendationState := none
deriving Repr, DecidableEq

/-- Raw recommendation state as normalizeRuntimeState receives it. -/
structure RawRecommendationState where
  recommendedOption : Option String := none
  confidence : Option Confidence := none
  rationale : Option String := none
  updatedAt : Option String := none
deriving Repr, DecidableEq

/-- Raw research state as normalizeRuntimeState receives it. -/
structure RawResearchState where
  lastResearchAt : Option String := none
  queries : Option (List String) := none
deriving Repr, DecidableEq

/-- A Partial DecisionRuntimeState: the stage arrives as an arbitrary
stored string (possibly malformed), everything else optional. -/
structure RawRuntimeState where
  stage : Option String := none
  intake : Option RawIntake := none
  research : Option RawResearchState := none
  recommendation : Option RawRecommendationState := none
deriving Repr, DecidableEq

/-! ## Intake normalizer (src/decision-workflow.ts) -/

/-- trimOrUndefined from src/decision-workflow.ts. -/
def trimOrUndefined (value : Option String) : Option String :=
  match value with
  | none => none
  | some s =>
    if s.isEmpty then none
    else
      let trimmed := jsTrim s
      if trimmed.length > 0 then some trimmed else none

/-- The loop body of normalizeStringList: walk the values accumulating a
seen-set of lowercase keys. -/
def normalizeStringListGo : List String → List String → List String
  | [], _ => []
  | value :: rest, seen =>
    let trimmed := jsTrim value
    if trimmed.isEmpty then normalizeStringListGo rest seen
    else
      let key := jsToLower trimmed
      if key ∈ seen then normalizeStringListGo rest seen
      else trimmed :: normalizeStringListGo rest (key :: seen)

/-- normalizeStringList from src/decision-workflow.ts: trim, drop empties,
deduplicate case-insensitively keeping first occurrence, cap at 14. -/
def normalizeStringList (values : List String) : List String :=
  (normalizeStringListGo values []).take 14

/-- normalizeIntake from src/decision-workflow.ts. -/
def normalizeIntake (intake : Option RawIntake) (fallbackGoal : Option String) :
    DecisionIntakeState :=
  let i := intake.getD {}
  { goal :=
      match trimOrUndefined i.goal with
      | some g => some g
      | none => trimOrUndefined fallbackGoal
    optionsScope := trimOrUndefined i.optionsScope
    constraints := normalizeStringList (i.constraints.getD [])
    timeline := trimOrUndefined i.timeline
    riskTolerance := trimOrUndefined i.riskTolerance
    successCriteria := trimOrUndefined i.successCriteria
    mustAvoid := trimOrUndefined i.mustAvoid }

/-- mergeIntakeState from src/decision-workflow.ts.  The object literal
passed to normalizeIntake is the spread of current then patch (a present
patch key overrides even with an undefined value), with the constraints
key rebuilt as the concatenation of both constraint lists. -/
def mergeIntakeState (current : DecisionIntakeState) (patch : IntakePatch) :
    DecisionIntakeState :=
  normalizeIntake
    (some
      { goal := patch.goal.getD current.goal
        optionsScope := patch.optionsScope.getD current.optionsScope
        constraints := some (current.constraints ++ patch.constraints.getD [])
        timeline := patch.timeline.getD current.timeline
        riskTolerance := patch.riskTolerance.getD current.riskTolerance
        successCriteria := patch.successCriteria.getD current.successCriteria
        mustAvoid := patch.mustAvoid.getD current.mustAvoid })
    none

/-- createEmptyRuntimeState from src/decision-workflow.ts. -/
def createEmptyRuntimeState (userGoal : Option String) : DecisionRuntimeState :=
  let goal := userGoal.map jsTrim
  { stage := .intake
    intake :=
      { goal :=
          match goal with
          | none => none
          | some g => if g.isEmpty then none else if g.length > 4 then some g else none
        constraints := [] }
    research := { queries := [] } }

/-- normalizeStage from src/decision-workflow.ts: any string other than
the three stage literals collapses to intake. -/
def normalizeStage (stage : Option String) : DecisionStage :=
  if stage = some "intake" then .intake
  else if stage = some "research" then .research
  else if stage = some "recommendation" then .recommendation
  else .intake

/-- normalizeRuntimeState from src/decision-workflow.ts.  The source
stamps a fresh ISO timestamp on a recommendation missing updatedAt; the
wall clock is passed in as nowIso. -/
def normalizeRuntimeState (input : Option RawRuntimeState) (fallbackGoal : Option String)
    (nowIso : String) : DecisionRuntimeState :=
  match input with
  | none => createEmptyRuntimeState fallbackGoal
  | some inp =>
    { stage := normalizeStage inp.stage
      intake := normalizeIntake inp.intake fallbackGoal
      research :=
        { lastResearchAt := trimOrUndefined (inp.research.bind (fun r => r.lastResearchAt))
          queries := normalizeStringList ((inp.research.bind (fun r => r.queries)).getD []) }
      recommendation :=
        inp.recommendation.map (fun r =>
          { recommendedOption := (trimOrUndefined r.recommendedOption).getD "Unknown"
            confidence := r.confidence.getD .medium
            rationale := (trimOrUndefined r.rationale).getD "No rationale provided."
            updatedAt := (trimOrUndefined r.updatedAt).getD nowIso }) }

/-! ## Intake completeness (src/decision-workflow.ts) -/

/-- The keys of INTAKE_FIELD_LABELS. -/
inductive IntakeFieldKey
  | goal
  | optionsScope
  | constraints
  | timeline
  | riskTolerance
  | successCriteria
deriving Repr, DecidableEq

/-- REQUIRED_INTAKE_FIELDS from src/decision-workflow.ts, in source order. -/
def REQUIRED_INTAKE_FIELDS : List IntakeFieldKey :=
  [.goal, .optionsScope, .constraints, .timeline, .riskTolerance, .successCriteria]

/-- Reading a scalar intake field by key (constraints is handled
separately by the caller and never read through this path). -/
def intakeScalar (intake : DecisionIntakeState) : IntakeFieldKey → Option String
  | .goal => intake.goal
  | .optionsScope => intake.optionsScope
  | .constraints => none
  | .timeline => intake.timeline
  | .riskTolerance => intake.riskTolerance
  | .successCriteria => intake.successCriteria

/-- The loop of getMissingIntakeFields over the required-field list. -/
def getMissingIntakeFieldsGo (intake : DecisionIntakeState) :
    List IntakeFieldKey → List IntakeFieldKey
  | [] => []
  | field :: rest =>
    if field = .constraints then
      if intake.constraints.isEmpty then
        field :: getMissingIntakeFieldsGo intake rest
      else getMissingIntakeFieldsGo intake rest
    else
      match intakeScalar intake field with
      | none => field :: getMissingIntakeFieldsGo intake rest
      | some value =>
        if (jsTrim value).length < 2 then field :: getMissingIntakeFieldsGo intake rest
        else getMissingIntakeFieldsGo intake rest

/-- getMissingIntakeFields from src/decision-workflow.ts. -/
def getMissingIntakeFields (intake : DecisionIntakeState) : List IntakeFieldKey :=
  getMissingIntakeFieldsGo intake REQUIRED_INTAKE_FIELDS

/-- getIntakeProgress from src/decision-workflow.ts (JavaScript numbers
behave as exact rationals on these tiny values). -/
def getIntakeProgress (intake : DecisionIntakeState) : Rat :=
  let missing : Nat := (getMissingIntakeFields intake).length
  let total : Nat := REQUIRED_INTAKE_FIELDS.length
  max 0 (min 1 (((total : Rat) - (missing : Rat)) / (total : Rat)))

/-- shouldTransitionToResearch from src/decision-workflow.ts. -/
def shouldTransitionToResearch (intake : DecisionIntakeState) : Bool :=
  (getMissingIntakeFields intake).length == 0

/-! ## Evidence ranker (src/decision-workflow.ts)

The ranker leans on two JavaScript builtins: Date.parse (returning a
millisecond epoch or NaN) and the URL constructor (yielding a hostname or
throwing).  Both are modelled as oracle functions collected in JsEnv so
that the theorems hold for every behaviour of those builtins. -/

/-- Oracles for the JavaScript builtins used by the ranker: dateParse
returns the epoch milliseconds of Date.parse (none for NaN), hostname
returns the hostname the URL constructor would produce (none when the
constructor throws). -/
structure JsEnv where
  dateParse : String → Option Int
  hostname : String → Option String

/-- WebSearchResultItem from src/types.ts (the source provider name is an
opaque string here). -/
structure WebSearchResultItem where
  title : String
  url : String
  snippet : String
  publishedDate : Option String := none
  source : String := ""
deriving Repr, DecidableEq

/-- The intermediate item-plus-score record built inside rankSearchResults. -/
structure ScoredSearchResult extends WebSearchResultItem where
  score : Int
deriving Repr, DecidableEq

/-- RankedSearchResult from src/decision-workflow.ts. -/
structure RankedSearchResult extends ScoredSearchResult where
  rank : Nat
deriving Repr, DecidableEq

/-- recencyBonus from src/decision-workflow.ts.  A NaN now-timestamp makes
every age comparison false in JavaScript, yielding 0. -/
def recencyBonus (env : JsEnv) (publishedDate : Option String) (now : Option Int) : Int :=
  match publishedDate with
  | none => 0
  | some d =>
    match env.dateParse d with
    | none => 0
    | some parsed =>
      match now with
      | none => 0
      | some nowMs =>
        let diffDays := Int.fdiv (nowMs - parsed) 86400000
        if diffDays ≤ 7 then 10
        else if diffDays ≤ 30 then 6
        else if diffDays ≤ 120 then 3
        else 0

/-- TRUSTED_DOMAIN_BONUS from src/decision-workflow.ts. -/
def TRUSTED_DOMAIN_BONUS : List (String × Int) :=
  [("gov", 8), ("edu", 6), ("org", 4)]

/-- Split a character list at a separator character, as the JavaScript
string split builtin does on a one-character separator. -/
def splitOnCharList (sep : Char) : List Char → List (List Char)
  | [] => [[]]
  | x :: rest =>
    if x = sep then [] :: splitOnCharList sep rest
    else
      match splitOnCharList sep rest with
      | [] => [[x]]
      | h :: t => (x :: h) :: t

/-- Model of the JavaScript value.split(".") builtin. -/
def jsSplitOnDot (s : String) : List String :=
  (splitOnCharList '.' s.data).map String.mk

/-- domainBonus from src/decision-workflow.ts: the try/catch around the
URL constructor surfaces as the none branch of the hostname oracle. -/
def domainBonus (env : JsEnv) (url : String) : Int :=
  match env.hostname url with
  | none => 0
  | some host =>
    let hostname := jsToLower host
    let parts := jsSplitOnDot hostname
    let tld := parts.getLastD ""
    (TRUSTED_DOMAIN_BONUS.lookup tld).getD 0

/-- The dedup loop at the head of rankSearchResults: drop items whose
trimmed URL is empty or already seen, rewriting kept items to the trimmed
URL. -/
def rankDedupGo : List WebSearchResultItem → List String → List WebSearchResultItem
  | [], _ => []
  | item :: rest, seenUrls =>
    let normalizedUrl := jsTrim item.url
    if normalizedUrl.isEmpty || seenUrls.contains normalizedUrl then
      rankDedupGo rest seenUrls
    else
      { item with url := normalizedUrl } :: rankDedupGo rest (normalizedUrl :: seenUrls)

/-- The scoring map of rankSearchResults, carrying the running index of
the deduplicated list. -/
def rankScoreGo (env : JsEnv) (now : Option Int) :
    List WebSearchResultItem → Nat → List ScoredSearchResult
  | [], _ => []
  | item :: rest, index =>
    let positionScore : Int := max 0 (14 - (index : Int))
    let freshness := recencyBonus env item.publishedDate now
    let reliability := domainBonus env item.url
    let snippetSignal : Int := min 5 ((item.snippet.length : Int) / 120)
    { toWebSearchResultItem := item
      score := positionScore + freshness + reliability + snippetSignal }
      :: rankScoreGo env now rest (index + 1)

/-- The final map of rankSearchResults assigning 1-based ranks. -/
def rankAssignGo : List ScoredSearchResult → Nat → List RankedSearchResult
  | [], _ => []
  | item :: rest, index =>
    { toScoredSearchResult := item, rank := index + 1 } :: rankAssignGo rest (index + 1)

/-- Insert an element into a score-descending list, after every element
of strictly greater score (so equal-score elements already present stay
in front, as a stable sort demands). -/
def sortInsertDesc (x : ScoredSearchResult) : List ScoredSearchResult → List ScoredSearchResult
  | [] => [x]
  | y :: ys => if x.score < y.score then y :: sortInsertDesc x ys else x :: y :: ys

/-- Model of the stable JavaScript Array sort under the comparator
(a, b) => b.score - a.score.  The ECMAScript specification pins the
result uniquely: non-increasing scores with equal-score elements in
input order, which is exactly what this insertion sort produces (proved
below as sortedness and pair stability). -/
def sortByScoreDesc : List ScoredSearchResult → List ScoredSearchResult
  | [] => []
  | x :: xs => sortInsertDesc x (sortByScoreDesc xs)

/-- rankSearchResults from src/decision-workflow.ts. -/
def rankSearchResults (env : JsEnv) (results : List WebSearchResultItem)
    (nowIso : String) : List RankedSearchResult :=
  let now := env.dateParse nowIso
  let deduped := rankDedupGo results []
  let scored := rankScoreGo env now deduped 0
  let sorted := sortByScoreDesc scored
  rankAssignGo sorted 0

/-! ## Provider fallback runner (src/provider.ts, src/agent.ts) -/

/-- ProviderName from src/types.ts. -/
inductive ProviderName
  | cerebras
  | groq
  | openrouter
deriving Repr, DecidableEq

/-- The string a ProviderName interpolates to. -/
def ProviderName.toStr : ProviderName → String
  | .cerebras => "cerebras"
  | .groq => "groq"
  | .openrouter => "openrouter"

/-- The slice of AppConfig the fallback machinery reads. -/
structure AppConfigCore where
  activeProvider : ProviderName
  providerOrder : List ProviderName
  models : ProviderName → String

/-- The providers record of AppSecrets: an optional API key per provider. -/
def ProviderSecrets : Type := ProviderName → Option String

/-- ProviderCandidate from src/provider.ts. -/
structure ProviderCandidate where
  provider : ProviderName
  apiKey : String
  model : String
deriving Repr, DecidableEq

/-- getApiKey from src/provider.ts. -/
def getApiKey (provider : ProviderName) (secrets : ProviderSecrets) : Option String :=
  secrets provider

/-- The accumulation loop of getProviderCandidates. -/
def getProviderCandidatesGo (config : AppConfigCore) (secrets : ProviderSecrets) :
    List ProviderName → List ProviderCandidate
  | [] => []
  | provider :: rest =>
    match getApiKey provider secrets with
    | none => getProviderCandidatesGo config secrets rest
    | some key =>
      { provider := provider, apiKey := key, model := config.models provider }
        :: getProviderCandidatesGo config secrets rest

/-- getProviderCandidates from src/provider.ts. -/
def getProviderCandidates (config : AppConfigCore) (secrets : ProviderSecrets) :
    List ProviderCandidate :=
  let ordered :=
    config.activeProvider :: config.providerOrder.filter (fun p => p != config.activeProvider)
  getProviderCandidatesGo config secrets ordered

/-- Result of one runWithProviderFallback execution: the returned value or
thrown aggregate error, together with how many runner attempts were made
and the accumulated labeled failure messages. -/
structure FallbackOutcome (α : Type) where
  result : Except String (ProviderName × α)
  attempts : Nat
  errors : List String

/-- The failure label pushed per attempt, provider#attempt: message. -/
def attemptLabel (provider : ProviderName) (attempt : Nat) (message : String) : String :=
  provider.toStr ++ "#" ++ toString attempt ++ ": " ++ message

/-- The aggregate error thrown when every candidate is exhausted. -/
def allFailedError (errors : List String) : String :=
  "All providers failed. " ++ String.intercalate " | " errors

/-- The candidate/attempt loop of runWithProviderFallback.  One execution
of the try-block body (resolveModel plus the runner closure) is one call
of the outcome oracle, indexed by the global call count so each attempt
may behave differently. -/
def runFallbackGo {α : Type} (outcome : Nat → Except String α) :
    List ProviderCandidate → Nat → List String → FallbackOutcome α
  | [], calls, errors =>
    { result := .error (allFailedError errors), attempts := calls, errors := errors }
  | candidate :: rest, calls, errors =>
    match outcome calls with
    | .ok value =>
      { result := .ok (candidate.provider, value), attempts := calls + 1, errors := errors }
    | .error message =>
      let errors1 := errors ++ [attemptLabel candidate.provider 1 message]
      match outcome (calls + 1) with
      | .ok value =>
        { result := .ok (candidate.provider, value), attempts := calls + 2, errors := errors1 }
      | .error message2 =>
        runFallbackGo outcome rest (calls + 2)
          (errors1 ++ [attemptLabel candidate.provider 2 message2])

/-- The configuration-error message thrown when no candidate exists. -/
def noProviderError : String :=
  "No LLM provider API keys configured. Run 'claritycheck onboard' and add at least one provider key."

/-- runWithProviderFallback from src/agent.ts. -/
def runWithProviderFallback {α : Type} (config : AppConfigCore) (secrets : ProviderSecrets)
    (outcome : Nat → Except String α) : FallbackOutcome α :=
  let candidates := getProviderCandidates config secrets
  if candidates.isEmpty then
    { result := .error noProviderError, attempts := 0, errors := [] }
  else
    runFallbackGo outcome candidates 0 []

/-! ## Evidence gatherer and research turn (src/agent.ts)

The impure boundaries of gatherEvidence are oracles: the query plan
(produced upstream by buildResearchQueries), the per-query web search,
the per-URL fetch, and the URL regular expression.  Everything the
repository computes from their answers is embedded. -/

/-- A chat message row as the agent sees it. -/
structure ChatMsg where
  role : String
  content : String
deriving Repr, DecidableEq

/-- latestUserMessage from src/agent.ts: scan history backwards for the
last user row. -/
def latestUserMessage (history : List ChatMsg) : String :=
  match history.reverse.find? (fun m => m.role == "user") with
  | some m => m.content
  | none => ""

/-- The dedup loop of extractUrls. -/
def extractUrlsGo : List String → List String → List String
  | [], _ => []
  | m :: rest, seen =>
    let normalized := jsTrim m
    if normalized.isEmpty || seen.contains normalized then extractUrlsGo rest seen
    else normalized :: extractUrlsGo rest (normalized :: seen)

/-- extractUrls from src/agent.ts; urlMatches is the oracle for the
text.match call against the https?:// pattern. -/
def extractUrls (urlMatches : String → List String) (text : String) : List String :=
  (extractUrlsGo (urlMatches text) []).take 4

/-- The number of distinct strings in a list, as new Set(list).size
computes it. -/
def jsSetSize (l : List String) : Nat :=
  l.dedup.length

/-- What gatherEvidence returns (the prompt-text assembly, which only
feeds the synthesis prompt, is omitted). -/
structure GatherResult where
  queryProvider : ProviderName
  queries : List String
  sourceList : List (String × String)
  fetchedCount : Nat
  sufficientEvidence : Bool
deriving Repr, DecidableEq

/-- gatherEvidence from src/agent.ts, with the query plan, web search,
web fetch, and URL regex as oracles.  Search failures contribute no
items (they are only echoed as warnings in the prompt text); fetch
rejections are dropped by the allSettled filter. -/
def gatherEvidence (env : JsEnv) (queryPlan : ProviderName × List String)
    (searchOutcome : String → Except String (List WebSearchResultItem))
    (fetchOutcome : String → Option String)
    (urlMatches : String → List String)
    (latestUserText : String) (nowIso : String) : GatherResult :=
  let queries := queryPlan.2.take 6
  let searchItems := queries.flatMap (fun q =>
    match searchOutcome q with
    | .ok result => result.take 6
    | .error _ => [])
  let ranked := rankSearchResults env searchItems nowIso
  let topRanked := ranked.take 8
  let userLinkedUrls := extractUrls urlMatches latestUserText
  let fetchTargetUrls := ((topRanked.take 4).map (fun t => t.url) ++ userLinkedUrls).take 6
  let fetchedDocs := fetchTargetUrls.filterMap (fun u => (fetchOutcome u).map (fun d => (u, d)))
  let uniqueSources := jsSetSize (topRanked.map (fun item => item.url))
  { queryProvider := queryPlan.1
    queries := queries
    sourceList := topRanked.map (fun item => (item.title, item.url))
    fetchedCount := fetchedDocs.length
    sufficientEvidence := decide (uniqueSources ≥ 3) || decide (fetchedDocs.length ≥ 2) }

/-- The structured object of RecommendationSchema. -/
structure RecommendationObj where
  recommendation : String
  confidence : Confidence
  rationale : String
  tradeoffs : List String
  rejectedAlternatives : List String
  whatCouldChange : List String
  responseText : String
deriving Repr, DecidableEq

/-- The stored string of a confidence tier. -/
def Confidence.toStr : Confidence → String
  | .low => "low"
  | .medium => "medium"
  | .high => "high"

/-- formatRecommendationText from src/agent.ts. -/
def formatRecommendationText (input : RecommendationObj) : String :=
  let lines :=
    ["Recommendation: " ++ input.recommendation,
     "Confidence: " ++ input.confidence.toStr,
     "",
     "Why: " ++ input.rationale]
    ++ (if input.tradeoffs.length > 0 then
          ["", "Tradeoffs:"] ++ input.tradeoffs.map (fun item => "- " ++ item)
        else [])
    ++ (if input.rejectedAlternatives.length > 0 then
          ["", "Alternatives rejected:"] ++ input.rejectedAlternatives.map (fun item => "- " ++ item)
        else [])
    ++ (if input.whatCouldChange.length > 0 then
          ["", "What could change this decision:"] ++ input.whatCouldChange.map (fun item => "- " ++ item)
        else [])
  String.intercalate "\n" lines

/-- The fixed still-researching reply of runResearchAndRecommendation. -/
def stillResearchingText : String :=
  String.intercalate "\n"
    ["I am still researching and not ready to give a recommendation yet.",
     "",
     "I could not gather enough high-quality sources for this turn.",
     "Please share any known links, candidate options, or more specific constraints so I can tighten the search.",
     "",
     "I will automatically continue to recommendation mode once evidence quality is strong enough."]

/-- View of a normalized intake as the raw shape a spread produces. -/
def rawOfIntake (i : DecisionIntakeState) : RawIntake :=
  { goal := i.goal
    optionsScope := i.optionsScope
    constraints := some i.constraints
    timeline := i.timeline
    riskTolerance := i.riskTolerance
    successCriteria := i.successCriteria
    mustAvoid := i.mustAvoid }

/-- View of a recommendation state as the raw shape a spread produces. -/
def rawOfRecommendation (r : DecisionRecommendationState) : RawRecommendationState :=
  { recommendedOption := some r.recommendedOption
    confidence := some r.confidence
    rationale := some r.rationale
    updatedAt := some r.updatedAt }

/-- View of a runtime state as the raw shape a spread produces. -/
def rawOfRuntime (rt : DecisionRuntimeState) : RawRuntimeState :=
  { stage := some rt.stage.toStr
    intake := some (rawOfIntake rt.intake)
    research := some { lastResearchAt := rt.research.lastResearchAt, queries := some rt.research.queries }
    recommendation := rt.recommendation.map rawOfRecommendation }

/-- The JavaScript string.includes test, via occurrence splitting. -/
def jsIncludes (haystack needle : String) : Bool :=
  (haystack.splitOn needle).length > 1

/-- The numbered Sources checked suffix appended to a recommendation. -/
def sourcesSuffix (sourceList : List (String × String)) : String :=
  String.join ((sourceList.take 6).enum.map (fun p =>
    "\n" ++ toString (p.1 + 1) ++ ". " ++ p.2.1 ++ " - " ++ p.2.2))

/-- One research-and-recommendation turn step: the runtime states written
to the store in order, how many times the synthesis fallback runner was
invoked, and the returned reply (or propagated error). -/
structure TurnStep where
  persisted : List DecisionRuntimeState
  synthCalls : Nat
  result : Except String (ProviderName × String × DecisionRuntimeState)
deriving Repr

/-- runResearchAndRecommendation from src/agent.ts, taking the gathered
evidence and the synthesis runner outcome as inputs. -/
def runResearchAndRecommendation (gathered : GatherResult) (runtime : DecisionRuntimeState)
    (nowIso : String) (synthOutcome : FallbackOutcome RecommendationObj) : TurnStep :=
  let runtimeWithResearch :=
    normalizeRuntimeState
      (some { rawOfRuntime runtime with
                stage := some "research"
                research := some { lastResearchAt := some nowIso, queries := some gathered.queries } })
      none nowIso
  if !gathered.sufficientEvidence then
    { persisted := [runtimeWithResearch]
      synthCalls := 0
      result := .ok (gathered.queryProvider, stillResearchingText, runtimeWithResearch) }
  else
    match synthOutcome.result with
    | .error e =>
      { persisted := [runtimeWithResearch], synthCalls := 1, result := .error e }
    | .ok (providerUsed, recommendation) =>
      let text0 := formatRecommendationText recommendation
      let text1 :=
        match runtime.recommendation with
        | some prior =>
          if prior.recommendedOption != recommendation.recommendation
              && !(jsIncludes (jsToLower recommendation.responseText) "what changed:") then
            text0 ++ "\n\nWhat changed: new evidence from this turn shifted the recommendation."
          else text0
        | none => text0
      let text2 :=
        if (jsTrim recommendation.responseText).length > 0 then
          jsTrim recommendation.responseText ++ "\n\n" ++ text1
        else text1
      let text3 :=
        if gathered.sourceList.length > 0 then
          text2 ++ "\n\nSources checked:" ++ sourcesSuffix gathered.sourceList
        else text2
      let runtimeWithRecommendation :=
        normalizeRuntimeState
          (some { rawOfRuntime runtimeWithResearch with
                    stage := some "recommendation"
                    recommendation := some
                      { recommendedOption := some recommendation.recommendation
                        confidence := some recommendation.confidence
                        rationale := some recommendation.rationale
                        updatedAt := some nowIso } })
          none nowIso
      { persisted := [runtimeWithResearch, runtimeWithRecommendation]
        synthCalls := 1
        result := .ok (providerUsed, text3, runtimeWithRecommendation) }

/-! ## Recommendation follow-up classifier (src/agent.ts) -/

/-- The two classification outcomes of FollowupActionSchema. -/
inductive FollowupAction
  | clarify_existing
  | reresearch
deriving Repr, DecidableEq

/-- The alternatives of the acknowledgement regular expression. -/
def ACK_PHRASES : List String :=
  ["thanks", "thank you", "got it", "ok", "okay", "cool", "done", "perfect"]

/-- A full-string match of the acknowledgement pattern: one of the fixed
phrases followed only by periods, exclamation marks, or spaces (stated on
the character sequence, which is what the regular expression engine
consumes). -/
def ackRegexMatch (s : String) : Bool :=
  ACK_PHRASES.any (fun p =>
    s.data.take p.data.length == p.data
      && (s.data.drop p.data.length).all (fun c => c == '.' || c == '!' || c == ' '))

/-- classifyRecommendationFollowup from src/agent.ts: the returned action
together with how many times the fallback runner was invoked. -/
def classifyRecommendationFollowup (history : List ChatMsg)
    (modelOutcome : FallbackOutcome FollowupAction) : FollowupAction × Nat :=
  let latestUser := jsToLower (latestUserMessage history)
  if ackRegexMatch latestUser then (.clarify_existing, 0)
  else
    match modelOutcome.result with
    | .ok pv => (pv.2, 1)
    | .error _ => (.reresearch, 1)

/-! ## Decision completion (src/agent.ts)

The free-text retry parses the model text with extractJsonObject, whose
JSON.parse / code-fence machinery is a JavaScript builtin stack modelled
as the extractJson oracle; coerceSummaryObject and the zod validation it
ends with are embedded. -/

/-- String slice from the start: value.slice(0, n). -/
def jsSliceTo (s : String) (n : Nat) : String :=
  String.mk (s.data.take n)

/-- An option row of the raw summary object; none fields model absent or
wrongly-typed JSON values. -/
structure RawOptionRow where
  option : Option String := none
  pros : Option (List (Option String)) := none
  cons : Option (List (Option String)) := none
deriving Repr, DecidableEq

/-- The unknown object coerceSummaryObject receives: every field is
optional and only string-typed (or array-typed) values count. -/
structure RawSummary where
  title : Option String := none
  userGoal : Option String := none
  goal : Option String := none
  constraints : Option (List (Option String)) := none
  optionsConsidered : Option (Option (List (Option RawOptionRow))) := none
  options : Option (Option (List (Option RawOptionRow))) := none
  recommendedOption : Option String := none
  recommendation : Option String := none
  rationale : Option String := none
  reasoning : Option String := none
  confidence : Option String := none
deriving Repr, DecidableEq

/-- The per-item loop of toStringArray, with the remaining budget. -/
def toStringArrayGo : List (Option String) → Nat → List String
  | [], _ => []
  | item :: rest, budget =>
    match item with
    | none => toStringArrayGo rest budget
    | some s =>
      let trimmed := jsTrim s
      if trimmed.isEmpty then toStringArrayGo rest budget
      else if budget ≤ 1 then [trimmed]
      else trimmed :: toStringArrayGo rest (budget - 1)

/-- toStringArray from src/agent.ts. -/
def toStringArray (value : Option (List (Option String))) (max : Nat) : List String :=
  match value with
  | none => []
  | some items => toStringArrayGo items max

/-- An option/pros/cons triple of the decision summary. -/
structure SummaryOption where
  option : String
  pros : List String
  cons : List String
deriving Repr, DecidableEq

/-- The per-row loop of toOptions, with the remaining budget. -/
def toOptionsGo : List (Option RawOptionRow) → Nat → List SummaryOption
  | [], _ => []
  | row? :: rest, budget =>
    match row? with
    | none => toOptionsGo rest budget
    | some row =>
      let option := (row.option.map jsTrim).getD ""
      if option.isEmpty then toOptionsGo rest budget
      else
        let entry : SummaryOption :=
          { option := option, pros := toStringArray row.pros 8, cons := toStringArray row.cons 8 }
        if budget ≤ 1 then [entry] else entry :: toOptionsGo rest (budget - 1)

/-- toOptions from src/agent.ts (budget 8). -/
def toOptions (value : Option (List (Option RawOptionRow))) : List SummaryOption :=
  match value with
  | none => []
  | some rows => toOptionsGo rows 8

/-- The parsed object of SummarySchema. -/
structure DecisionSummary where
  title : String
  userGoal : String
  constraints : List String
  optionsConsidered : List SummaryOption
  recommendedOption : String
  rationale : String
  confidence : Confidence
deriving Repr, DecidableEq

/-- The zod validation SummarySchema.parse performs on the draft object
coerceSummaryObject builds: the four scalar strings carry min(1). -/
def summarySchemaParse (draft : DecisionSummary) : Except String DecisionSummary :=
  if draft.title.isEmpty then .error "SummarySchema: title too short"
  else if draft.userGoal.isEmpty then .error "SummarySchema: userGoal too short"
  else if draft.recommendedOption.isEmpty then .error "SummarySchema: recommendedOption too short"
  else if draft.rationale.isEmpty then .error "SummarySchema: rationale too short"
  else .ok draft

/-- getFallbackGoal from src/agent.ts. -/
def getFallbackGoal (messages : List ChatMsg) : String :=
  match messages.find? (fun m => m.role == "user") with
  | some m =>
    let firstUser := jsTrim m.content
    if !firstUser.isEmpty && firstUser.length > 1 then jsSliceTo firstUser 180
    else "Decision support"
  | none => "Decision support"

/-- The is-a-nonempty-string-after-trim test used throughout
coerceSummaryObject. -/
def nonEmptyTrim (v : Option String) : Option String :=
  v.bind (fun s =>
    let t := jsTrim s
    if t.length > 0 then some t else none)

/-- coerceSummaryObject from src/agent.ts; the none input is any value
that is not an object.  The zod parse at the end may throw, which
surfaces as the error branch. -/
def coerceSummaryObject (input : Option RawSummary) (messages : List ChatMsg)
    (outcomeNote : Option String) : Except String DecisionSummary :=
  let row := input.getD {}
  let fallbackGoal := getFallbackGoal messages
  let fallbackTitle := jsSliceTo fallbackGoal 80
  let rawConfidence := (row.confidence.map jsToLower).getD "medium"
  let confidence : Confidence :=
    if rawConfidence = "low" then .low
    else if rawConfidence = "high" then .high
    else if rawConfidence = "medium" then .medium
    else .medium
  let title := (nonEmptyTrim row.title).getD fallbackTitle
  let userGoal := (nonEmptyTrim row.userGoal).getD ((nonEmptyTrim row.goal).getD fallbackGoal)
  let recommendedOption :=
    (nonEmptyTrim row.recommendedOption).getD
      ((nonEmptyTrim row.recommendation).getD "No single recommendation selected")
  let rationale :=
    match nonEmptyTrim row.rationale with
    | some t => t
    | none =>
      match nonEmptyTrim row.reasoning with
      | some t => t
      | none =>
        match outcomeNote with
        | some note => jsTrim note
        | none => "Summary generated from the available conversation context."
  summarySchemaParse
    { title := title
      userGoal := userGoal
      constraints := toStringArray row.constraints 12
      optionsConsidered := toOptions ((row.optionsConsidered.orElse (fun _ => row.options)).getD none)
      recommendedOption := recommendedOption
      rationale := rationale
      confidence := confidence }

/-- The persisted completed-decision record. -/
structure DecisionRecord where
  id : String
  title : String
  userGoal : String
  constraints : List String
  optionsConsidered : List SummaryOption
  recommendedOption : String
  rationale : String
  confidence : Confidence
  sources : List (String × String)
  outcomeNote : Option String
deriving Repr, DecidableEq

/-- What a completeDecision call leaves behind: the returned value or the
error it throws, whether a record was persisted, and whether the
active-decision pointer was cleared. -/
structure CompletionOutcome where
  result : Except String (ProviderName × DecisionRecord)
  recordPersisted : Bool
  activeCleared : Bool
deriving Repr

/-- completeDecision from src/agent.ts.  structuredOutcome is the
per-attempt result of the generateObject runner, freeTextOutcome the
per-attempt text of the generateText runner, extractJson the
extractJsonObject builtin stack. -/
def completeDecision (config : AppConfigCore) (secrets : ProviderSecrets)
    (decisionId : String) (messages : List ChatMsg) (sources : List (String × String))
    (outcomeNote : Option String)
    (structuredOutcome : Nat → Except String DecisionSummary)
    (freeTextOutcome : Nat → Except String String)
    (extractJson : String → Option RawSummary) : CompletionOutcome :=
  let r1 := runWithProviderFallback config secrets structuredOutcome
  let summaryResult : Except String (ProviderName × DecisionSummary) :=
    match r1.result with
    | .ok pv => .ok pv
    | .error _ =>
      let outcome2 : Nat → Except String DecisionSummary := fun k =>
        match freeTextOutcome k with
        | .error e => .error e
        | .ok text => coerceSummaryObject (extractJson text) messages outcomeNote
      let r2 := runWithProviderFallback config secrets outcome2
      match r2.result with
      | .ok pv => .ok pv
      | .error _ =>
        match coerceSummaryObject none messages outcomeNote with
        | .ok summary => .ok (config.activeProvider, summary)
        | .error e => .error e
  match summaryResult with
  | .error e => { result := .error e, recordPersisted := false, activeCleared := false }
  | .ok pv =>
    { result := .ok (pv.1,
        { id := decisionId
          title := pv.2.title
          userGoal := pv.2.userGoal
          constraints := pv.2.constraints
          optionsConsidered := pv.2.optionsConsidered
          recommendedOption := pv.2.recommendedOption
          rationale := pv.2.rationale
          confidence := pv.2.confidence
          sources := sources
          outcomeNote := outcomeNote })
      recordPersisted := true
      activeCleared := true }

/-! ## Claim-side specification functions

These restate what the specification claims, written from the claim
text (not from the source), to be compared with the embedded code. -/

/-- The six scalar string fields of an intake state. -/
inductive ScalarIntakeField
  | goal
  | optionsScope
  | timeline
  | riskTolerance
  | successCriteria
  | mustAvoid
deriving Repr, DecidableEq

/-- Project a scalar field out of an intake state. -/
def intakeScalarField (i : DecisionIntakeState) : ScalarIntakeField → Option String
  | .goal => i.goal
  | .optionsScope => i.optionsScope
  | .timeline => i.timeline
  | .riskTolerance => i.riskTolerance
  | .successCriteria => i.successCriteria
  | .mustAvoid => i.mustAvoid

/-- Project a scalar field out of a patch. -/
def patchScalarField (p : IntakePatch) : ScalarIntakeField → Option (Option String)
  | .goal => p.goal
  | .optionsScope => p.optionsScope
  | .timeline => p.timeline
  | .riskTolerance => p.riskTolerance
  | .successCriteria => p.successCriteria
  | .mustAvoid => p.mustAvoid

/-- Spec-side missing-field rule of claim C6: a scalar is missing iff
absent or trimmed below 2 characters, constraints iff the list is empty. -/
def intakeFieldMissing (intake : DecisionIntakeState) : IntakeFieldKey → Bool
  | .constraints => intake.constraints.isEmpty
  | .goal => decide (((intake.goal.map jsTrim).getD "").length < 2)
  | .optionsScope => decide (((intake.optionsScope.map jsTrim).getD "").length < 2)
  | .timeline => decide (((intake.timeline.map jsTrim).getD "").length < 2)
  | .riskTolerance => decide (((intake.riskTolerance.map jsTrim).getD "").length < 2)
  | .successCriteria => decide (((intake.successCriteria.map jsTrim).getD "").length < 2)

/-- Spec-side score of claim C4: position term plus recency, domain and
snippet bonuses for the item sitting at the given index. -/
def specScore (env : JsEnv) (now : Option Int) (item : WebSearchResultItem) (index : Nat) : Int :=
  max 0 (14 - (index : Int)) + recencyBonus env item.publishedDate now
    + domainBonus env item.url + min 5 ((item.snippet.length : Int) / 120)

/-- Spec-side survivor list of claim C4: walk the results keeping an item
(rewritten to its trimmed URL) exactly when the trimmed URL is non-empty
and no earlier item carries the same trimmed URL. -/
def specDedupGo (earlier : List WebSearchResultItem) :
    List WebSearchResultItem → List WebSearchResultItem
  | [] => []
  | item :: rest =>
    let u := jsTrim item.url
    if u.isEmpty then specDedupGo (earlier ++ [item]) rest
    else if earlier.any (fun prev => jsTrim prev.url == u) then specDedupGo (earlier ++ [item]) rest
    else { item with url := u } :: specDedupGo (earlier ++ [item]) rest

/-- Spec-side survivors starting from an empty history. -/
def specDedup (results : List WebSearchResultItem) : List WebSearchResultItem :=
  specDedupGo [] results

/-- Spec-side failure log of claim C1: two labeled entries per candidate,
in candidate order, labelled provider#attempt with the message of the
corresponding global call. -/
def specFailLabels (msg : Nat → String) : List ProviderCandidate → Nat → List String
  | [], _ => []
  | c :: rest, base =>
    attemptLabel c.provider 1 (msg base)
      :: attemptLabel c.provider 2 (msg (base + 1))
      :: specFailLabels msg rest (base + 2)

/-- Spec-side candidate list of claim C1: the active provider first, the
remaining configured providers in configured order, filtered to those
with a present credential. -/
def specCandidates (config : AppConfigCore) (secrets : ProviderSecrets) :
    List ProviderCandidate :=
  (config.activeProvider :: config.providerOrder.filter (fun p => p != config.activeProvider)).filterMap
    (fun p => (secrets p).map (fun k =>
      { provider := p, apiKey := k, model := config.models p }))

/-- Spec-side acknowledgement pattern of claim C7: one of the fixed
phrases followed only by periods, exclamation marks, or spaces. -/
def ackSpec (s : String) : Prop :=
  ∃ p ∈ ACK_PHRASES, ∃ t : List Char,
    (∀ c ∈ t, c = '.' ∨ c = '!' ∨ c = ' ') ∧ s.data = p.data ++ t

/-- The lowercase keys the normalizer has recorded after walking a list:
used to split normalizeStringListGo over an append. -/
def seenAfter : List String → List String → List String
  | [], seen => seen
  | value :: rest, seen =>
    let trimmed := jsTrim value
    if trimmed.isEmpty then seenAfter rest seen
    else if jsToLower trimmed ∈ seen then seenAfter rest seen
    else seenAfter rest (jsToLower trimmed :: seen)

/-! ## Shared example values for witnesses and counterexamples -/

/-- A config with all three providers in order. -/
def exampleConfig : AppConfigCore :=
  { activeProvider := .cerebras
    providerOrder := [.cerebras, .groq, .openrouter]
    models := fun _ => "model-a" }

/-- Secrets with only the cerebras key present. -/
def exampleSecrets : ProviderSecrets :=
  fun p => if p = ProviderName.cerebras then some "key-1" else none

/-- Secrets with cerebras and groq keys present. -/
def exampleSecretsTwo : ProviderSecrets :=
  fun p =>
    if p = ProviderName.cerebras then some "key-1"
    else if p = ProviderName.groq then some "key-2"
    else none

/-- Builtin oracle used by concrete ranking examples: the URL constructor
accepts the two https URLs involved and Date.parse resolves the ISO
now-timestamp. -/
def exampleEnv : JsEnv :=
  { dateParse := fun s => if s = "2026-01-01T00:00:00.000Z" then some 1767225600000 else none
    hostname := fun u =>
      if u = "https://a.com/x" then some "a.com"
      else if u = "https://b.com/y" then some "b.com"
      else none }

/-- A result item with an empty URL (dropped by the ranker). -/
def exampleItemEmptyUrl : WebSearchResultItem :=
  { title := "empty", url := "", snippet := "", publishedDate := none, source := "tavily" }

/-- A plain dot-com result item with no bonuses. -/
def exampleItemA : WebSearchResultItem :=
  { title := "A", url := "https://a.com/x", snippet := "", publishedDate := none, source := "tavily" }

/-- A second plain dot-com result item with no bonuses. -/
def exampleItemB : WebSearchResultItem :=
  { title := "B", url := "https://b.com/y", snippet := "", publishedDate := none, source := "tavily" }

end ClarityCheck

namespace ClarityCheck

lemma trimOrUndefined_some_of_pos {s : String} (h : 0 < (jsTrim s).length) :
    trimOrUndefined (some s) = some (jsTrim s) := by
  unfold trimOrUndefined
  have hs : ¬ s.isEmpty := by
    intro he
    have : s = "" := (String.isEmpty_iff s).mp he
    subst this
    simp [jsTrim, trimChars] at h
  simp [hs, h]

lemma trimOrUndefined_none_of_zero {s : String} (h : (jsTrim s).length = 0) :
    trimOrUndefined (some s) = none := by
  unfold trimOrUndefined
  by_cases hs : s.isEmpty
  · simp [hs]
  · simp [hs, h]

lemma mergeIntakeState_scalarField (current : DecisionIntakeState) (patch : IntakePatch)
    (f : ScalarIntakeField) :
    intakeScalarField (mergeIntakeState current patch) f
      = trimOrUndefined ((patchScalarField patch f).getD (intakeScalarField current f)) := by
  cases f
  case goal =>
    show (match trimOrUndefined (patch.goal.getD current.goal) with
          | some g => some g
          | none => trimOrUndefined none) = _
    cases h : trimOrUndefined (patch.goal.getD current.goal)
    · simp only [patchScalarField, intakeScalarField, h]
      rfl
    · simp only [patchScalarField, intakeScalarField, h]
  all_goals rfl

/-- C3 counterexample: a patch that supplies the goal key with an empty
string erases the previously captured goal, refuting the claim that an
empty-string patch field never erases a captured value. -/
theorem c3_merge_counterexample :
    (mergeIntakeState { goal := some "Buy a laptop" } { goal := some (some "") }).goal = none
    ∧ (mergeIntakeState { goal := some "Buy a laptop" } { goal := some (some "") }).goal
        ≠ some "Buy a laptop" := by
  exact ⟨rfl, by decide⟩

/-- C3 (amended): merge leaves a scalar field of a normalized current
intake unchanged exactly when the patch omits that key; a present key
overrides the field with its trimmed value, so a present key holding a
non-empty value replaces the field, while a present key holding
undefined or an empty/whitespace-only string erases it. -/
theorem c3_merge_amended (current : DecisionIntakeState) (patch : IntakePatch)
    (f : ScalarIntakeField) :
    (patchScalarField patch f = none →
        trimOrUndefined (intakeScalarField current f) = intakeScalarField current f →
        intakeScalarField (mergeIntakeState current patch) f = intakeScalarField current f)
    ∧ (∀ s, patchScalarField patch f = some (some s) → 0 < (jsTrim s).length →
        intakeScalarField (mergeIntakeState current patch) f = some (jsTrim s))
    ∧ (patchScalarField patch f = some none →
        intakeScalarField (mergeIntakeState current patch) f = none)
    ∧ (∀ s, patchScalarField patch f = some (some s) → (jsTrim s).length = 0 →
        intakeScalarField (mergeIntakeState current patch) f = none) := by
  refine ⟨?_, ?_, ?_, ?_⟩
  · intro hp hn
    rw [mergeIntakeState_scalarField, hp, Option.getD_none, hn]
  · intro s hp hlen
    rw [mergeIntakeState_scalarField, hp, Option.getD_some, trimOrUndefined_some_of_pos hlen]
  · intro hp
    rw [mergeIntakeState_scalarField, hp, Option.getD_some]
    rfl
  · intro s hp hlen
    rw [mergeIntakeState_scalarField, hp, Option.getD_some, trimOrUndefined_none_of_zero hlen]

/-- Witness for C3: an absent goal key preserves the captured goal, and
a present non-empty goal overrides it with the trimmed value. -/
theorem c3_merge_amended_witness :
    intakeScalarField (mergeIntakeState { goal := some "Buy a laptop" } {}) ScalarIntakeField.goal
      = some "Buy a laptop"
    ∧ intakeScalarField
        (mergeIntakeState { goal := some "Buy a laptop" } { goal := some (some " New goal ") })
        ScalarIntakeField.goal = some "New goal" := by
  constructor
  · exact (c3_merge_amended { goal := some "Buy a laptop" } {} ScalarIntakeField.goal).1 rfl (by decide)
  · have h := (c3_merge_amended { goal := some "Buy a laptop" }
      { goal := some (some " New goal ") } ScalarIntakeField.goal).2.1 " New goal " rfl (by decide)
    simpa using h

/-- C10: createEmptyRuntimeState starts at stage intake with empty
constraints and sets the initial goal exactly when the trimmed userGoal
is strictly longer than 4 characters, so any non-empty trimmed goal of
length 1 to 4 is dropped. -/
theorem c10_create_runtime_goal_threshold :
    ∀ userGoal : Option String,
      (createEmptyRuntimeState userGoal).stage = DecisionStage.intake ∧
      (createEmptyRuntimeState userGoal).intake.constraints = [] ∧
      (createEmptyRuntimeState userGoal).intake.goal =
        userGoal.bind (fun g => if 4 < (jsTrim g).length then some (jsTrim g) else none) := by
  intro userGoal
  refine ⟨rfl, rfl, ?_⟩
  cases userGoal with
  | none => rfl
  | some g =>
    simp only [createEmptyRuntimeState, Option.map, Option.bind]
    by_cases h : (jsTrim g).isEmpty
    · have he : jsTrim g = "" := (String.isEmpty_iff (jsTrim g)).mp h
      simp [h, he]
    · simp [h]

/-- C8 (code bug): at the failing input, a whitespace-only outcome note
with both the structured and the free-text model paths failing makes the
heuristic fallback build an empty rationale, so the schema validation
throws, completeDecision surfaces the error, and no record is persisted
(contradicting the claim that a record is always produced). -/
theorem c8_completion_whitespace_note_failure :
    (completeDecision exampleConfig exampleSecrets "d1"
        [{ role := "user", content := "Should I switch jobs?" }] [] (some " ")
        (fun _ => Except.error "schema call failed") (fun _ => Except.error "text call failed")
        (fun _ => none)).result
      = Except.error "SummarySchema: rationale too short"
    ∧ (completeDecision exampleConfig exampleSecrets "d1"
        [{ role := "user", content := "Should I switch jobs?" }] [] (some " ")
        (fun _ => Except.error "schema call failed") (fun _ => Except.error "text call failed")
        (fun _ => none)).recordPersisted = false := by
  exact ⟨rfl, rfl⟩

lemma getMissingGo_eq_filter (intake : DecisionIntakeState) :
    ∀ fs : List IntakeFieldKey,
      getMissingIntakeFieldsGo intake fs = fs.filter (intakeFieldMissing intake) := by
  intro fs
  induction fs with
  | nil => rfl
  | cons f rest ih =>
    cases f
    case constraints =>
      by_cases hc : intake.constraints.isEmpty <;>
        simp [getMissingIntakeFieldsGo, List.filter_cons, intakeFieldMissing, hc, ih]
    case goal =>
      cases ho : intake.goal with
      | none =>
        simp [getMissingIntakeFieldsGo, List.filter_cons, intakeFieldMissing, intakeScalar, ho, ih, jsTrim, trimChars]
      | some v =>
        by_cases hl : (jsTrim v).length < 2 <;>
          simp [getMissingIntakeFieldsGo, List.filter_cons, intakeFieldMissing, intakeScalar, ho, hl, ih]
    case optionsScope =>
      cases ho : intake.optionsScope with
      | none =>
        simp [getMissingIntakeFieldsGo, List.filter_cons, intakeFieldMissing, intakeScalar, ho, ih, jsTrim, trimChars]
      | some v =>
        by_cases hl : (jsTrim v).length < 2 <;>
          simp [getMissingIntakeFieldsGo, List.filter_cons, intakeFieldMissing, intakeScalar, ho, hl, ih]
    case timeline =>
      cases ho : intake.timeline with
      | none =>
        simp [getMissingIntakeFieldsGo, List.filter_cons, intakeFieldMissing, intakeScalar, ho, ih, jsTrim, trimChars]
      | some v =>
        by_cases hl : (jsTrim v).length < 2 <;>
          simp [getMissingIntakeFieldsGo, List.filter_cons, intakeFieldMissing, intakeScalar, ho, hl, ih]
    case riskTolerance =>
      cases ho : intake.riskTolerance with
      | none =>
        simp [getMissingIntakeFieldsGo, List.filter_cons, intakeFieldMissing, intakeScalar, ho, ih, jsTrim, trimChars]
      | some v =>
        by_cases hl : (jsTrim v).length < 2 <;>
          simp [getMissingIntakeFieldsGo, List.filter_cons, intakeFieldMissing, intakeScalar, ho, hl, ih]
    case successCriteria =>
      cases ho : intake.successCriteria with
      | none =>
        simp [getMissingIntakeFieldsGo, List.filter_cons, intakeFieldMissing, intakeScalar, ho, ih, jsTrim, trimChars]
      | some v =>
        by_cases hl : (jsTrim v).length < 2 <;>
          simp [getMissingIntakeFieldsGo, List.filter_cons, intakeFieldMissing, intakeScalar, ho, hl, ih]

lemma getMissing_eq_filter (intake : DecisionIntakeState) :
    getMissingIntakeFields intake = REQUIRED_INTAKE_FIELDS.filter (intakeFieldMissing intake) :=
  getMissingGo_eq_filter intake REQUIRED_INTAKE_FIELDS

lemma missing_le_six (intake : DecisionIntakeState) :
    (getMissingIntakeFields intake).length ≤ 6 := by
  rw [getMissing_eq_filter]
  have := List.length_filter_le (intakeFieldMissing intake) REQUIRED_INTAKE_FIELDS
  simpa [REQUIRED_INTAKE_FIELDS] using this

lemma progress_no_clamp (intake : DecisionIntakeState) :
    getIntakeProgress intake
      = ((6 : Rat) - ((getMissingIntakeFields intake).length : Rat)) / 6 := by
  have h6 := missing_le_six intake
  unfold getIntakeProgress
  have hl : ((6 : Rat) - ((getMissingIntakeFields intake).length : Rat)) / 6 ≤ 1 := by
    rw [div_le_one (by norm_num)]
    have : (0 : Rat) ≤ ((getMissingIntakeFields intake).length : Rat) := by positivity
    linarith
  have hg : (0 : Rat) ≤ ((6 : Rat) - ((getMissingIntakeFields intake).length : Rat)) / 6 := by
    apply div_nonneg _ (by norm_num)
    have : ((getMissingIntakeFields intake).length : Rat) ≤ 6 := by exact_mod_cast h6
    linarith
  have hlen : ((REQUIRED_INTAKE_FIELDS.length : Nat) : Rat) = 6 := by
    norm_num [REQUIRED_INTAKE_FIELDS]
  simp only []
  rw [hlen, min_eq_right hl, max_eq_right hg]

/-- C6: getMissingIntakeFields returns exactly the required fields that
fail their rule, in the fixed canonical order; progress equals
(6 - missingCount)/6 (the clamp never bites); isComplete holds iff no
field is missing; and an intake with only a valid goal has the other
five fields missing with progress 1/6. -/
theorem c6_missing_fields_progress :
    (∀ intake : DecisionIntakeState,
      getMissingIntakeFields intake = REQUIRED_INTAKE_FIELDS.filter (intakeFieldMissing intake)
      ∧ getIntakeProgress intake
          = ((6 : Rat) - ((REQUIRED_INTAKE_FIELDS.filter (intakeFieldMissing intake)).length : Rat)) / 6
      ∧ (shouldTransitionToResearch intake = true ↔
          ∀ f ∈ REQUIRED_INTAKE_FIELDS, intakeFieldMissing intake f = false))
    ∧ (∀ g : String, 2 ≤ (jsTrim g).length →
        getMissingIntakeFields { goal := some g }
          = [IntakeFieldKey.optionsScope, IntakeFieldKey.constraints, IntakeFieldKey.timeline,
             IntakeFieldKey.riskTolerance, IntakeFieldKey.successCriteria]
        ∧ getIntakeProgress { goal := some g } = 1 / 6) := by
  constructor
  · intro intake
    refine ⟨getMissing_eq_filter intake, ?_, ?_⟩
    · rw [progress_no_clamp, getMissing_eq_filter]
    · rw [shouldTransitionToResearch]
      rw [getMissing_eq_filter]
      constructor
      · intro h
        have : REQUIRED_INTAKE_FIELDS.filter (intakeFieldMissing intake) = [] := by
          cases hh : REQUIRED_INTAKE_FIELDS.filter (intakeFieldMissing intake) with
          | nil => rfl
          | cons a l => rw [hh] at h; simp at h
        intro f hf
        have := List.filter_eq_nil_iff.mp this f hf
        simpa using this
      · intro h
        have : REQUIRED_INTAKE_FIELDS.filter (intakeFieldMissing intake) = [] :=
          List.filter_eq_nil_iff.mpr (fun a ha => by simp [h a ha])
        simp [this]
  · intro g hg
    have hnl : ¬ ((jsTrim g).length < 2) := by omega
    constructor
    · simp [getMissingIntakeFields, REQUIRED_INTAKE_FIELDS, getMissingIntakeFieldsGo,
        intakeScalar, hnl]
    · rw [progress_no_clamp]
      have : getMissingIntakeFields { goal := some g }
          = [IntakeFieldKey.optionsScope, IntakeFieldKey.constraints, IntakeFieldKey.timeline,
             IntakeFieldKey.riskTolerance, IntakeFieldKey.successCriteria] := by
        simp [getMissingIntakeFields, REQUIRED_INTAKE_FIELDS, getMissingIntakeFieldsGo,
          intakeScalar, hnl]
      rw [this]
      norm_num

/-- Witness for C6: the goal-only scenario at the concrete goal string
Buy a car. -/
theorem c6_missing_fields_progress_witness :
    2 ≤ (jsTrim "Buy a car").length
    ∧ getMissingIntakeFields { goal := some "Buy a car" }
        = [IntakeFieldKey.optionsScope, IntakeFieldKey.constraints, IntakeFieldKey.timeline,
           IntakeFieldKey.riskTolerance, IntakeFieldKey.successCriteria]
    ∧ getIntakeProgress { goal := some "Buy a car" } = 1 / 6 := by
  refine ⟨by decide, ?_, ?_⟩
  · exact (c6_missing_fields_progress.2 "Buy a car" (by decide)).1
  · exact (c6_missing_fields_progress.2 "Buy a car" (by decide)).2

end ClarityCheck
namespace ClarityCheck

lemma ackRegexMatch_iff (s : String) : ackRegexMatch s = true ↔ ackSpec s := by
  unfold ackRegexMatch ackSpec
  rw [List.any_eq_true]
  constructor
  · rintro ⟨p, hp, hb⟩
    rw [Bool.and_eq_true] at hb
    obtain ⟨htake, hall⟩ := hb
    refine ⟨p, hp, s.data.drop p.data.length, ?_, ?_⟩
    · intro c hc
      have := List.all_eq_true.mp hall c hc
      rcases Bool.or_eq_true _ _ |>.mp this with h | h
      · rcases Bool.or_eq_true _ _ |>.mp h with h1 | h1
        · exact Or.inl (by simpa using h1)
        · exact Or.inr (Or.inl (by simpa using h1))
      · exact Or.inr (Or.inr (by simpa using h))
    · have ht : s.data.take p.data.length = p.data := by simpa using htake
      conv_lhs => rw [← List.take_append_drop p.data.length s.data]
      rw [ht]
  · rintro ⟨p, hp, t, hmarks, heq⟩
    refine ⟨p, hp, ?_⟩
    rw [Bool.and_eq_true]
    constructor
    · rw [heq]
      simp [List.take_left]
    · rw [heq, List.drop_left]
      rw [List.all_eq_true]
      intro c hc
      rcases hmarks c hc with h | h | h <;> simp [h]

/-- C7: when the lowercased latest user message matches one of the fixed
acknowledgement phrases followed only by periods, exclamation marks or
spaces, classification short-circuits to clarify_existing with zero
runner calls; otherwise, when the model path fails, it defaults to
reresearch. -/
theorem c7_followup_classifier (history : List ChatMsg) (modelOutcome : FallbackOutcome FollowupAction) :
    (ackSpec (jsToLower (latestUserMessage history)) →
      classifyRecommendationFollowup history modelOutcome = (FollowupAction.clarify_existing, 0))
    ∧ (¬ ackSpec (jsToLower (latestUserMessage history)) →
      ∀ e, modelOutcome.result = Except.error e →
        classifyRecommendationFollowup history modelOutcome = (FollowupAction.reresearch, 1)) := by
  constructor
  · intro h
    have hb : ackRegexMatch (jsToLower (latestUserMessage history)) = true :=
      (ackRegexMatch_iff _).mpr h
    simp [classifyRecommendationFollowup, hb]
  · intro h e he
    have hb : ackRegexMatch (jsToLower (latestUserMessage history)) = false := by
      cases hbv : ackRegexMatch (jsToLower (latestUserMessage history)) with
      | true => exact absurd ((ackRegexMatch_iff _).mp hbv) h
      | false => rfl
    simp [classifyRecommendationFollowup, hb, he]

/-- Witness for C7: the concrete message Thanks! short-circuits to
clarify_existing with zero model calls. -/
theorem c7_followup_classifier_witness :
    classifyRecommendationFollowup [{ role := "user", content := "Thanks!" }]
      { result := Except.error "unused", attempts := 0, errors := [] }
      = (FollowupAction.clarify_existing, 0) := by
  apply (c7_followup_classifier _ _).1
  refine ⟨"thanks", by decide, ['!'], ?_, ?_⟩
  · intro c hc
    simp at hc
    subst hc
    right; left; rfl
  · decide

end ClarityCheck
namespace ClarityCheck

lemma getProviderCandidatesGo_eq (config : AppConfigCore) (secrets : ProviderSecrets) :
    ∀ l : List ProviderName,
      getProviderCandidatesGo config secrets l
        = l.filterMap (fun p => (secrets p).map (fun key =>
            { provider := p, apiKey := key, model := config.models p })) := by
  intro l
  induction l with
  | nil => rfl
  | cons p rest ih =>
    cases h : secrets p <;>
      simp [getProviderCandidatesGo, getApiKey, h, ih, List.filterMap_cons]

lemma getProviderCandidates_eq_spec (config : AppConfigCore) (secrets : ProviderSecrets) :
    getProviderCandidates config secrets = specCandidates config secrets := by
  unfold getProviderCandidates specCandidates
  exact getProviderCandidatesGo_eq config secrets _

lemma specFailLabels_length (msg : Nat → String) :
    ∀ (cands : List ProviderCandidate) (base : Nat),
      (specFailLabels msg cands base).length = 2 * cands.length := by
  intro cands
  induction cands with
  | nil => intro base; rfl
  | cons c rest ih =>
    intro base
    simp only [specFailLabels, List.length_cons, ih, Nat.mul_succ]

lemma runFallbackGo_allFail {α : Type} (outcome : Nat → Except String α) (msg : Nat → String) :
    ∀ (cands : List ProviderCandidate) (base : Nat) (errs : List String),
      (∀ j < 2 * cands.length, outcome (base + j) = Except.error (msg (base + j))) →
      runFallbackGo outcome cands base errs =
        { result := Except.error (allFailedError (errs ++ specFailLabels msg cands base))
          attempts := base + 2 * cands.length
          errors := errs ++ specFailLabels msg cands base } := by
  intro cands
  induction cands with
  | nil =>
    intro base errs _
    simp [runFallbackGo, specFailLabels]
  | cons c rest ih =>
    intro base errs h
    have h0 : outcome base = Except.error (msg base) := by
      have := h 0 (by simp only [List.length_cons]; omega)
      simpa using this
    have h1 : outcome (base + 1) = Except.error (msg (base + 1)) := by
      have := h 1 (by simp only [List.length_cons]; omega)
      exact this
    have hrest : ∀ j < 2 * rest.length, outcome (base + 2 + j) = Except.error (msg (base + 2 + j)) := by
      intro j hj
      have := h (j + 2) (by simp only [List.length_cons]; omega)
      have he : base + (j + 2) = base + 2 + j := by omega
      rwa [he] at this
    have hrec := ih (base + 2)
      ((errs ++ [attemptLabel c.provider 1 (msg base)]) ++ [attemptLabel c.provider 2 (msg (base + 1))])
      hrest
    simp only [runFallbackGo, h0, h1]
    rw [hrec]
    simp only [FallbackOutcome.mk.injEq]
    refine ⟨?_, ?_, ?_⟩
    · simp [specFailLabels, allFailedError]
    · simp [Nat.mul_succ]; omega
    · simp [specFailLabels]

lemma runFallbackGo_firstSuccess {α : Type} (outcome : Nat → Except String α) (v : α) :
    ∀ (cands : List ProviderCandidate) (k base : Nat) (errs : List String),
      (∀ j < k, ∃ e, outcome (base + j) = Except.error e) →
      outcome (base + k) = Except.ok v →
      k < 2 * cands.length →
      ∀ c, cands[k / 2]? = some c →
        (runFallbackGo outcome cands base errs).result = Except.ok (c.provider, v)
        ∧ (runFallbackGo outcome cands base errs).attempts = base + k + 1 := by
  intro cands
  induction cands with
  | nil =>
    intro k base errs _ _ hk c _
    simp at hk
  | cons cand rest ih =>
    intro k base errs hprev hk hlt c hc
    cases k with
    | zero =>
      simp only [Nat.add_zero] at hk
      have hcc : c = cand := by
        simp at hc
        exact hc.symm
      subst hcc
      constructor <;> simp [runFallbackGo, hk]
    | succ k1 =>
      cases k1 with
      | zero =>
        obtain ⟨e, he⟩ := hprev 0 (by omega)
        simp only [Nat.add_zero] at he
        have hcc : c = cand := by
          simp at hc
          exact hc.symm
        subst hcc
        constructor <;> simp [runFallbackGo, he, hk]
      | succ k2 =>
        obtain ⟨e0, he0⟩ := hprev 0 (by omega)
        obtain ⟨e1, he1⟩ := hprev 1 (by omega)
        simp only [Nat.add_zero] at he0
        have hprev2 : ∀ j < k2, ∃ e, outcome (base + 2 + j) = Except.error e := by
          intro j hj
          obtain ⟨e, he⟩ := hprev (j + 2) (by omega)
          refine ⟨e, ?_⟩
          have hx : base + (j + 2) = base + 2 + j := by omega
          rwa [hx] at he
        have hk2 : outcome (base + 2 + k2) = Except.ok v := by
          have hx : base + (k2 + 1 + 1) = base + 2 + k2 := by omega
          rwa [hx] at hk
        have hlt2 : k2 < 2 * rest.length := by
          simp [Nat.mul_succ] at hlt
          omega
        have hc2 : rest[k2 / 2]? = some c := by
          have hdiv : (k2 + 1 + 1) / 2 = k2 / 2 + 1 := by omega
          rw [hdiv] at hc
          simpa using hc
        have := ih k2 (base + 2)
          ((errs ++ [attemptLabel cand.provider 1 e0]) ++ [attemptLabel cand.provider 2 e1])
          hprev2 hk2 hlt2 c hc2
        constructor
        · rw [show (runFallbackGo outcome (cand :: rest) base errs).result
              = (runFallbackGo outcome rest (base + 2)
                  ((errs ++ [attemptLabel cand.provider 1 e0]) ++ [attemptLabel cand.provider 2 e1])).result
            from by simp only [runFallbackGo, he0, he1]]
          exact this.1
        · rw [show (runFallbackGo outcome (cand :: rest) base errs).attempts
              = (runFallbackGo outcome rest (base + 2)
                  ((errs ++ [attemptLabel cand.provider 1 e0]) ++ [attemptLabel cand.provider 2 e1])).attempts
            from by simp only [runFallbackGo, he0, he1]]
          rw [this.2]
          omega

end ClarityCheck
namespace ClarityCheck

/-- C1: the provider fallback runner tries the active provider first,
then the remaining configured providers in order, filtered to
credentialed ones; with no credentialed provider it fails immediately
with the no-provider-configured error after zero attempts; when all N
candidates fail permanently it makes exactly N*2 attempts and throws an
aggregate error carrying exactly N*2 provider#attempt labels; and the
first successful attempt returns immediately with the succeeding
provider identity. -/
theorem c1_provider_fallback_protocol {α : Type} (config : AppConfigCore) (secrets : ProviderSecrets)
    (outcome : Nat → Except String α) (msg : Nat → String) (k : Nat) (v : α) :
    getProviderCandidates config secrets = specCandidates config secrets
    ∧ ((∀ p ∈ config.activeProvider :: config.providerOrder, secrets p = none) →
        runWithProviderFallback config secrets outcome =
          { result := Except.error noProviderError, attempts := 0, errors := [] })
    ∧ (getProviderCandidates config secrets ≠ [] →
        (∀ j < 2 * (getProviderCandidates config secrets).length, outcome j = Except.error (msg j)) →
        (runWithProviderFallback config secrets outcome).attempts
            = 2 * (getProviderCandidates config secrets).length
        ∧ (runWithProviderFallback config secrets outcome).errors
            = specFailLabels msg (getProviderCandidates config secrets) 0
        ∧ (specFailLabels msg (getProviderCandidates config secrets) 0).length
            = 2 * (getProviderCandidates config secrets).length
        ∧ (runWithProviderFallback config secrets outcome).result
            = Except.error (allFailedError (specFailLabels msg (getProviderCandidates config secrets) 0)))
    ∧ ((∀ j < k, ∃ e, outcome j = Except.error e) → outcome k = Except.ok v →
        k < 2 * (getProviderCandidates config secrets).length →
        ∀ c, (getProviderCandidates config secrets)[k / 2]? = some c →
          (runWithProviderFallback config secrets outcome).result = Except.ok (c.provider, v)
          ∧ (runWithProviderFallback config secrets outcome).attempts = k + 1) := by
  refine ⟨getProviderCandidates_eq_spec config secrets, ?_, ?_, ?_⟩
  · intro hnone
    have hempty : getProviderCandidates config secrets = [] := by
      rw [getProviderCandidates_eq_spec]
      unfold specCandidates
      rw [List.filterMap_eq_nil_iff]
      intro p hp
      have hmem : p ∈ config.activeProvider :: config.providerOrder := by
        rcases List.mem_cons.mp hp with h | h
        · exact List.mem_cons.mpr (Or.inl h)
        · exact List.mem_cons.mpr (Or.inr (List.mem_filter.mp h).1)
      rw [hnone p hmem]
      rfl
    unfold runWithProviderFallback
    simp [hempty]
  · intro hne hfail
    have hine : (getProviderCandidates config secrets).isEmpty = false := by
      cases hcc : getProviderCandidates config secrets with
      | nil => exact absurd hcc hne
      | cons a l => rfl
    have hgo := runFallbackGo_allFail outcome msg (getProviderCandidates config secrets) 0 []
      (by intro j hj; simpa using hfail j hj)
    unfold runWithProviderFallback
    simp only [hine, Bool.false_eq_true, if_false]
    rw [hgo]
    refine ⟨by simp, by simp, specFailLabels_length msg _ 0, by simp⟩
  · intro hprev hk hlt c hc
    have hine : (getProviderCandidates config secrets).isEmpty = false := by
      cases hcc : getProviderCandidates config secrets with
      | nil => rw [hcc] at hlt; simp at hlt
      | cons a l => rfl
    have hgo := runFallbackGo_firstSuccess outcome v (getProviderCandidates config secrets) k 0 []
      (by intro j hj; simpa using hprev j hj) (by simpa using hk) hlt c hc
    unfold runWithProviderFallback
    simp only [hine, Bool.false_eq_true, if_false]
    exact ⟨hgo.1, by rw [hgo.2]; omega⟩

/-- Witness for C1: two credentialed candidates failing permanently make
4 attempts with 4 labels; all-missing credentials give the configuration
error; and a success on the third call returns the second provider. -/
theorem c1_provider_fallback_protocol_witness :
    (runWithProviderFallback exampleConfig exampleSecretsTwo
        (fun j => (Except.error ("boom" ++ toString j) : Except String Nat))).attempts = 4
    ∧ (runWithProviderFallback exampleConfig exampleSecretsTwo
        (fun j => (Except.error ("boom" ++ toString j) : Except String Nat))).errors
        = ["cerebras#1: boom0", "cerebras#2: boom1", "groq#1: boom2", "groq#2: boom3"]
    ∧ (runWithProviderFallback exampleConfig (fun _ => none)
        (fun j => (Except.error ("boom" ++ toString j) : Except String Nat))).result
        = Except.error noProviderError
    ∧ (runWithProviderFallback exampleConfig exampleSecretsTwo
        (fun j => if j < 2 then Except.error "boom" else Except.ok (42 : Nat))).result
        = Except.ok (ProviderName.groq, 42) := by
  refine ⟨?_, ?_, ?_, ?_⟩
  · have h := (c1_provider_fallback_protocol exampleConfig exampleSecretsTwo
      (fun j => (Except.error ("boom" ++ toString j) : Except String Nat))
      (fun j => "boom" ++ toString j) 0 0).2.2.1 (by decide) (fun j _ => rfl)
    rw [h.1]
    decide
  · have h := (c1_provider_fallback_protocol exampleConfig exampleSecretsTwo
      (fun j => (Except.error ("boom" ++ toString j) : Except String Nat))
      (fun j => "boom" ++ toString j) 0 0).2.2.1 (by decide) (fun j _ => rfl)
    rw [h.2.1]
    decide
  · have h := (c1_provider_fallback_protocol exampleConfig (fun _ => none)
      (fun j => (Except.error ("boom" ++ toString j) : Except String Nat))
      (fun j => "boom" ++ toString j) 0 0).2.1 (by intro p _; rfl)
    rw [h]
  · have h := (c1_provider_fallback_protocol exampleConfig exampleSecretsTwo
      (fun j => if j < 2 then Except.error "boom" else Except.ok (42 : Nat))
      (fun _ => "boom") 2 42).2.2.2
      (by
        intro j hj
        refine ⟨"boom", ?_⟩
        simp [hj])
      rfl (by decide)
      { provider := .groq, apiKey := "key-2", model := "model-a" } (by decide)
    rw [h.1]

end ClarityCheck
namespace ClarityCheck

lemma getLast?_dropWhile (p : Char → Bool) :
    ∀ l : List Char, l.dropWhile p ≠ [] → (l.dropWhile p).getLast? = l.getLast? := by
  intro l
  induction l with
  | nil => intro h; simp at h
  | cons a rest ih =>
    intro h
    by_cases hp : p a
    · rw [List.dropWhile_cons_of_pos hp] at h ⊢
      rw [ih h]
      have hrne : rest ≠ [] := by
        intro he
        subst he
        simp at h
      cases rest with
      | nil => exact absurd rfl hrne
      | cons b l2 => exact List.getLast?_cons_cons.symm
    · rw [List.dropWhile_cons_of_neg hp]

lemma trimChars_head_not (l : List Char) :
    ∀ c, (trimChars l).head? = some c → isJsWhitespace c = false := by
  intro c hc
  unfold trimChars at hc
  rw [List.head?_reverse] at hc
  have hne : (l.dropWhile isJsWhitespace).reverse.dropWhile isJsWhitespace ≠ [] := by
    intro he
    rw [he] at hc
    simp at hc
  rw [getLast?_dropWhile _ _ hne, List.getLast?_reverse] at hc
  have hd := List.head?_dropWhile_not isJsWhitespace l
  rw [hc] at hd
  exact hd

lemma trimChars_front_fix (l : List Char) :
    (trimChars l).dropWhile isJsWhitespace = trimChars l := by
  cases hc : trimChars l with
  | nil => rfl
  | cons a rest =>
    have ha : isJsWhitespace a = false := trimChars_head_not l a (by rw [hc]; rfl)
    rw [List.dropWhile_cons_of_neg (by simp [ha])]

lemma trimChars_back_fix (l : List Char) :
    (trimChars l).reverse.dropWhile isJsWhitespace = (trimChars l).reverse := by
  have h : (trimChars l).reverse
      = (l.dropWhile isJsWhitespace).reverse.dropWhile isJsWhitespace := by
    rw [trimChars, List.reverse_reverse]
  rw [h, List.dropWhile_idempotent]

lemma trimChars_idem (l : List Char) : trimChars (trimChars l) = trimChars l := by
  conv_lhs => rw [trimChars, trimChars_front_fix, trimChars_back_fix, List.reverse_reverse]

lemma jsTrim_idem (s : String) : jsTrim (jsTrim s) = jsTrim s := by
  show String.mk (trimChars (trimChars s.data)) = String.mk (trimChars s.data)
  rw [trimChars_idem]

end ClarityCheck
namespace ClarityCheck

lemma normGo_append : ∀ (X Y seen : List String),
    normalizeStringListGo (X ++ Y) seen
      = normalizeStringListGo X seen ++ normalizeStringListGo Y (seenAfter X seen) := by
  intro X
  induction X with
  | nil => intro Y seen; simp [normalizeStringListGo, seenAfter]
  | cons v rest ih =>
    intro Y seen
    by_cases he : (jsTrim v).isEmpty
    · simp only [List.cons_append, normalizeStringListGo, seenAfter, he, if_true]
      exact ih Y seen
    · by_cases hk : jsToLower (jsTrim v) ∈ seen
      · simp only [List.cons_append, normalizeStringListGo, seenAfter, he, hk,
          if_false, if_true, Bool.false_eq_true]
        exact ih Y seen
      · simp only [List.cons_append, normalizeStringListGo, seenAfter, he, hk,
          if_false, Bool.false_eq_true]
        simp only [List.append_eq]
        rw [ih Y (jsToLower (jsTrim v) :: seen)]

lemma normGo_clean : ∀ (X seen : List String),
    (∀ x ∈ normalizeStringListGo X seen,
        jsTrim x = x ∧ x.isEmpty = false ∧ jsToLower x ∉ seen)
    ∧ ((normalizeStringListGo X seen).map jsToLower).Nodup := by
  intro X
  induction X with
  | nil => intro seen; simp [normalizeStringListGo]
  | cons v rest ih =>
    intro seen
    by_cases he : (jsTrim v).isEmpty
    · simpa only [normalizeStringListGo, he, if_true] using ih seen
    · by_cases hk : jsToLower (jsTrim v) ∈ seen
      · simpa only [normalizeStringListGo, he, hk, if_false, if_true, Bool.false_eq_true]
          using ih seen
      · simp only [normalizeStringListGo, he, hk, if_false, Bool.false_eq_true]
        obtain ⟨ihm, ihn⟩ := ih (jsToLower (jsTrim v) :: seen)
        constructor
        · intro x hx
          rcases List.mem_cons.mp hx with hxv | hxr
          · subst hxv
            refine ⟨jsTrim_idem v, ?_, hk⟩
            cases hev : (jsTrim v).isEmpty
            · rfl
            · exact absurd hev he
          · obtain ⟨h1, h2, h3⟩ := ihm x hxr
            exact ⟨h1, h2, fun hmem => h3 (List.mem_cons.mpr (Or.inr hmem))⟩
        · rw [List.map_cons]
          refine List.Nodup.cons ?_ ihn
          intro hmem
          rw [List.mem_map] at hmem
          obtain ⟨y, hy, hyk⟩ := hmem
          obtain ⟨-, -, h3⟩ := ihm y hy
          exact h3 (by rw [hyk]; exact List.mem_cons_self _ _)

lemma normGo_of_clean : ∀ (L seen : List String),
    (∀ x ∈ L, jsTrim x = x ∧ x.isEmpty = false) →
    (L.map jsToLower).Nodup →
    (∀ x ∈ L, jsToLower x ∉ seen) →
    normalizeStringListGo L seen = L := by
  intro L
  induction L with
  | nil => intro seen _ _ _; rfl
  | cons x rest ih =>
    intro seen hclean hnodup hseen
    obtain ⟨ht, hne⟩ := hclean x (List.mem_cons_self x rest)
    have hks : jsToLower x ∉ seen := hseen x (List.mem_cons_self x rest)
    rw [List.map_cons, List.nodup_cons] at hnodup
    simp only [normalizeStringListGo, ht, hne, hks, if_false, Bool.false_eq_true]
    rw [ih (jsToLower x :: seen)
      (fun y hy => hclean y (List.mem_cons.mpr (Or.inr hy)))
      hnodup.2
      (fun y hy => by
        intro hmem
        rcases List.mem_cons.mp hmem with h | h
        · exact hnodup.1 (h ▸ List.mem_map_of_mem jsToLower hy)
        · exact hseen y (List.mem_cons.mpr (Or.inr hy)) h)]

lemma mem_seenAfter : ∀ (X seen : List String) (u : String),
    u ∈ seenAfter X seen
      ↔ u ∈ seen ∨ u ∈ (normalizeStringListGo X seen).map jsToLower := by
  intro X
  induction X with
  | nil => intro seen u; simp [seenAfter, normalizeStringListGo]
  | cons v rest ih =>
    intro seen u
    by_cases he : (jsTrim v).isEmpty
    · simp only [seenAfter, normalizeStringListGo, he, if_true]
      exact ih seen u
    · by_cases hk : jsToLower (jsTrim v) ∈ seen
      · simp only [seenAfter, normalizeStringListGo, he, hk, if_false, if_true,
          Bool.false_eq_true]
        exact ih seen u
      · simp only [seenAfter, normalizeStringListGo, he, hk, if_false, Bool.false_eq_true]
        rw [ih (jsToLower (jsTrim v) :: seen) u, List.map_cons]
        simp only [List.mem_cons]
        tauto

lemma normGo_congr : ∀ (Y seen₁ seen₂ : List String),
    (∀ u, u ∈ seen₁ ↔ u ∈ seen₂) →
    normalizeStringListGo Y seen₁ = normalizeStringListGo Y seen₂ := by
  intro Y
  induction Y with
  | nil => intro seen₁ seen₂ _; rfl
  | cons v rest ih =>
    intro seen₁ seen₂ hiff
    by_cases he : (jsTrim v).isEmpty
    · simp only [normalizeStringListGo, he, if_true]
      exact ih seen₁ seen₂ hiff
    · by_cases hk : jsToLower (jsTrim v) ∈ seen₁
      · have hk2 : jsToLower (jsTrim v) ∈ seen₂ := (hiff _).mp hk
        simp only [normalizeStringListGo, he, hk, hk2, if_false, if_true, Bool.false_eq_true]
        exact ih seen₁ seen₂ hiff
      · have hk2 : jsToLower (jsTrim v) ∉ seen₂ := fun h => hk ((hiff _).mpr h)
        simp only [normalizeStringListGo, he, hk, hk2, if_false, Bool.false_eq_true]
        rw [ih (jsToLower (jsTrim v) :: seen₁) (jsToLower (jsTrim v) :: seen₂)
          (fun u => by simp only [List.mem_cons]; rw [hiff u])]

lemma normalizeStringList_append_norm (A B : List String) :
    normalizeStringList (normalizeStringList A ++ B) = normalizeStringList (A ++ B) := by
  unfold normalizeStringList
  have hcleanA := normGo_clean A []
  by_cases hlen : (normalizeStringListGo A []).length ≤ 14
  · rw [List.take_of_length_le hlen]
    rw [normGo_append (normalizeStringListGo A []) B []]
    rw [normGo_of_clean (normalizeStringListGo A []) []
      (fun x hx => ⟨(hcleanA.1 x hx).1, (hcleanA.1 x hx).2.1⟩)
      hcleanA.2
      (fun x _ => List.not_mem_nil _)]
    rw [normGo_congr B (seenAfter (normalizeStringListGo A []) []) (seenAfter A [])
      (fun u => by
        rw [mem_seenAfter, mem_seenAfter]
        rw [normGo_of_clean (normalizeStringListGo A []) []
          (fun x hx => ⟨(hcleanA.1 x hx).1, (hcleanA.1 x hx).2.1⟩)
          hcleanA.2
          (fun x _ => List.not_mem_nil _)])]
    rw [normGo_append A B []]
  · push_neg at hlen
    have h14 : ((normalizeStringListGo A []).take 14).length = 14 := by
      rw [List.length_take]
      omega
    rw [normGo_append ((normalizeStringListGo A []).take 14) B []]
    rw [normGo_of_clean ((normalizeStringListGo A []).take 14) []
      (fun x hx => ⟨(hcleanA.1 x (List.mem_of_mem_take hx)).1,
        (hcleanA.1 x (List.mem_of_mem_take hx)).2.1⟩)
      (by
        rw [List.map_take]
        exact List.Nodup.sublist (List.take_sublist 14 _) hcleanA.2)
      (fun x _ => List.not_mem_nil _)]
    rw [List.take_append_of_le_length (by omega)]
    rw [List.take_take]
    rw [normGo_append A B []]
    rw [List.take_append_of_le_length (by omega)]
    simp

/-- C5: merging two patches in sequence yields the same constraints list
as normalizing the single concatenation of the current constraints and
both patch constraint lists (trimmed, empties dropped, case-insensitive
first-occurrence dedup, capped at 14). -/
theorem c5_merge_constraints_composition (current : DecisionIntakeState) (p1 p2 : IntakePatch) :
    (mergeIntakeState (mergeIntakeState current p1) p2).constraints
      = normalizeStringList
          (current.constraints ++ p1.constraints.getD [] ++ p2.constraints.getD []) := by
  have h2 : (mergeIntakeState (mergeIntakeState current p1) p2).constraints
      = normalizeStringList
          (normalizeStringList (current.constraints ++ p1.constraints.getD [])
            ++ p2.constraints.getD []) := rfl
  rw [h2, normalizeStringList_append_norm]

end ClarityCheck
namespace ClarityCheck

lemma rankAssignGo_map_toScored : ∀ (l : List ScoredSearchResult) (n : Nat),
    (rankAssignGo l n).map (fun r => r.toScoredSearchResult) = l := by
  intro l
  induction l with
  | nil => intro n; rfl
  | cons a rest ih => intro n; simp [rankAssignGo, ih]

lemma rankAssignGo_map_rank : ∀ (l : List ScoredSearchResult) (n : Nat),
    (rankAssignGo l n).map (fun r => r.rank) = List.range' (n + 1) l.length := by
  intro l
  induction l with
  | nil => intro n; rfl
  | cons a rest ih => intro n; simp [rankAssignGo, ih, List.range']

lemma rankAssignGo_length : ∀ (l : List ScoredSearchResult) (n : Nat),
    (rankAssignGo l n).length = l.length := by
  intro l
  induction l with
  | nil => intro n; rfl
  | cons a rest ih => intro n; simp [rankAssignGo, ih]

lemma rankScoreGo_eq_enumFrom (env : JsEnv) (now : Option Int) :
    ∀ (l : List WebSearchResultItem) (i : Nat),
      rankScoreGo env now l i
        = (List.enumFrom i l).map (fun p =>
            { toWebSearchResultItem := p.2, score := specScore env now p.2 p.1 }) := by
  intro l
  induction l with
  | nil => intro i; rfl
  | cons a rest ih =>
    intro i
    rw [List.enumFrom_cons, List.map_cons, ← ih (i + 1)]
    rfl

lemma rankScoreGo_map_item (env : JsEnv) (now : Option Int) :
    ∀ (l : List WebSearchResultItem) (i : Nat),
      (rankScoreGo env now l i).map (fun r => r.toWebSearchResultItem) = l := by
  intro l
  induction l with
  | nil => intro i; rfl
  | cons a rest ih => intro i; simp [rankScoreGo, ih]

lemma rankScoreGo_map_url (env : JsEnv) (now : Option Int)
    (l : List WebSearchResultItem) (i : Nat) :
    (rankScoreGo env now l i).map (fun r => r.url) = l.map (fun x => x.url) := by
  have := rankScoreGo_map_item env now l i
  calc (rankScoreGo env now l i).map (fun r => r.url)
      = ((rankScoreGo env now l i).map (fun r => r.toWebSearchResultItem)).map (fun x => x.url) := by
        rw [List.map_map]; rfl
    _ = l.map (fun x => x.url) := by rw [this]

lemma rankDedupGo_clean : ∀ (l : List WebSearchResultItem) (seen : List String),
    (∀ x ∈ rankDedupGo l seen, x.url.isEmpty = false ∧ x.url ∉ seen)
    ∧ ((rankDedupGo l seen).map (fun x => x.url)).Nodup := by
  intro l
  induction l with
  | nil => intro seen; simp [rankDedupGo]
  | cons item rest ih =>
    intro seen
    by_cases he : (jsTrim item.url).isEmpty
    · simpa only [rankDedupGo, he, Bool.true_or, if_true] using ih seen
    · by_cases hk : seen.contains (jsTrim item.url)
      · simpa only [rankDedupGo, he, hk, Bool.false_or, if_true] using ih seen
      · simp only [rankDedupGo, he, hk, Bool.false_or, if_false, Bool.false_eq_true]
        obtain ⟨ihm, ihn⟩ := ih (jsTrim item.url :: seen)
        have hknm : jsTrim item.url ∉ seen := by
          intro hmem
          exact hk (List.elem_iff.mpr hmem)
        constructor
        · intro x hx
          rcases List.mem_cons.mp hx with hxv | hxr
          · subst hxv
            constructor
            · show (jsTrim item.url).isEmpty = false
              exact Bool.eq_false_iff.mpr he
            · exact hknm
          · obtain ⟨h1, h2⟩ := ihm x hxr
            exact ⟨h1, fun hmem => h2 (List.mem_cons.mpr (Or.inr hmem))⟩
        · rw [List.map_cons]
          refine List.Nodup.cons ?_ ihn
          intro hmem
          rw [List.mem_map] at hmem
          obtain ⟨y, hy, hyk⟩ := hmem
          obtain ⟨-, h2⟩ := ihm y hy
          exact h2 (by rw [hyk]; exact List.mem_cons_self _ _)

end ClarityCheck
namespace ClarityCheck

lemma rankDedupGo_eq_spec : ∀ (l : List WebSearchResultItem)
    (seen : List String) (earlier : List WebSearchResultItem),
    (∀ u : String, u.isEmpty = false →
      seen.contains u = earlier.any (fun prev => jsTrim prev.url == u)) →
    rankDedupGo l seen = specDedupGo earlier l := by
  intro l
  induction l with
  | nil => intro seen earlier _; rfl
  | cons item rest ih =>
    intro seen earlier hinv
    by_cases he : (jsTrim item.url).isEmpty
    · simp only [rankDedupGo, specDedupGo, he, Bool.true_or, if_true]
      refine ih seen (earlier ++ [item]) ?_
      intro u hu
      rw [hinv u hu, List.any_append]
      have : [item].any (fun prev => jsTrim prev.url == u) = false := by
        simp only [List.any_cons, List.any_nil, Bool.or_false]
        have hne : jsTrim item.url ≠ u := by
          intro hequ
          rw [hequ] at he
          rw [he] at hu
          exact absurd hu (by simp)
        simpa using hne
      rw [this, Bool.or_false]
    · by_cases hk : seen.contains (jsTrim item.url)
      · have hkspec : earlier.any (fun prev => jsTrim prev.url == jsTrim item.url) = true := by
          rw [← hinv (jsTrim item.url) (Bool.eq_false_iff.mpr he)]
          exact hk
        simp only [rankDedupGo, specDedupGo, he, hk, hkspec, Bool.false_or, if_true, if_false,
          Bool.false_eq_true]
        refine ih seen (earlier ++ [item]) ?_
        intro u hu
        rw [hinv u hu, List.any_append]
        by_cases hequ : jsTrim item.url = u
        · have h1 : [item].any (fun prev => jsTrim prev.url == u) = true := by
            simp [hequ]
          rw [h1, Bool.or_true]
          rw [← hinv u hu, ← hequ]
          exact hk
        · have h1 : [item].any (fun prev => jsTrim prev.url == u) = false := by
            simpa using hequ
          rw [h1, Bool.or_false]
      · have hkspec : earlier.any (fun prev => jsTrim prev.url == jsTrim item.url) = false := by
          rw [← hinv (jsTrim item.url) (Bool.eq_false_iff.mpr he)]
          exact Bool.eq_false_iff.mpr hk
        simp only [rankDedupGo, specDedupGo, he, hk, hkspec, Bool.false_or, if_false,
          Bool.false_eq_true]
        congr 1
        refine ih (jsTrim item.url :: seen) (earlier ++ [item]) ?_
        intro u hu
        rw [List.contains_cons, List.any_append]
        rw [hinv u hu]
        simp only [List.any_cons, List.any_nil, Bool.or_false]
        rw [Bool.or_comm]
        congr 1
        simp [BEq.comm]
      
lemma rankDedup_eq_specDedup (results : List WebSearchResultItem) :
    rankDedupGo results [] = specDedup results := by
  refine rankDedupGo_eq_spec results [] [] ?_
  intro u _
  rfl

lemma rankDedupGo_of_clean : ∀ (l : List WebSearchResultItem) (seen : List String),
    (∀ x ∈ l, jsTrim x.url = x.url ∧ x.url.isEmpty = false) →
    (l.map (fun x => x.url)).Nodup →
    (∀ x ∈ l, ¬ seen.contains x.url) →
    rankDedupGo l seen = l := by
  intro l
  induction l with
  | nil => intro seen _ _ _; rfl
  | cons item rest ih =>
    intro seen hclean hnodup hseen
    obtain ⟨ht, hne⟩ := hclean item (List.mem_cons_self item rest)
    have hks := hseen item (List.mem_cons_self item rest)
    rw [List.map_cons, List.nodup_cons] at hnodup
    simp only [rankDedupGo, ht, hne, Bool.eq_false_iff.mpr hks, Bool.false_or, if_false,
      Bool.false_eq_true]
    have hitem : { item with url := item.url } = item := rfl
    rw [hitem]
    congr 1
    refine ih (item.url :: seen) (fun y hy => hclean y (List.mem_cons.mpr (Or.inr hy)))
      hnodup.2 ?_
    intro y hy hmem
    rw [List.contains_cons] at hmem
    rcases Bool.or_eq_true _ _ |>.mp hmem with h | h
    · have : y.url = item.url := by simpa using h
      exact hnodup.1 (this ▸ List.mem_map_of_mem (fun x => x.url) hy)
    · exact hseen y (List.mem_cons.mpr (Or.inr hy)) h

end ClarityCheck

namespace ClarityCheck

lemma sortInsert_split (x : ScoredSearchResult) :
    ∀ t : List ScoredSearchResult, ∃ t1 t2,
      sortInsertDesc x t = t1 ++ x :: t2 ∧ t = t1 ++ t2 ∧ (∀ y ∈ t1, x.score < y.score) := by
  intro t
  induction t with
  | nil => exact ⟨[], [], rfl, rfl, by simp⟩
  | cons y ys ih =>
    by_cases hlt : x.score < y.score
    · obtain ⟨t1, t2, h1, h2, h3⟩ := ih
      refine ⟨y :: t1, t2, ?_, ?_, ?_⟩
      · simp [sortInsertDesc, hlt, h1]
      · simp [h2]
      · intro z hz
        rcases List.mem_cons.mp hz with hz | hz
        · subst hz; exact hlt
        · exact h3 z hz
    · exact ⟨[], y :: ys, by simp [sortInsertDesc, hlt], rfl, by simp⟩

lemma sortByScoreDesc_perm : ∀ l : List ScoredSearchResult, (sortByScoreDesc l).Perm l := by
  intro l
  induction l with
  | nil => exact List.Perm.refl []
  | cons x xs ih =>
    obtain ⟨t1, t2, h1, h2, -⟩ := sortInsert_split x (sortByScoreDesc xs)
    show (sortInsertDesc x (sortByScoreDesc xs)).Perm (x :: xs)
    rw [h1]
    refine List.perm_middle.trans ?_
    rw [← h2]
    exact ih.cons x

lemma mem_sortInsert {x z : ScoredSearchResult} {t : List ScoredSearchResult} :
    z ∈ sortInsertDesc x t ↔ z = x ∨ z ∈ t := by
  obtain ⟨t1, t2, h1, h2, -⟩ := sortInsert_split x t
  rw [h1, h2]
  simp [List.mem_append, List.mem_cons]
  tauto

lemma sortInsert_pairwise {x : ScoredSearchResult} :
    ∀ {t : List ScoredSearchResult},
      t.Pairwise (fun a b => b.score ≤ a.score) →
      (sortInsertDesc x t).Pairwise (fun a b => b.score ≤ a.score) := by
  intro t
  induction t with
  | nil => intro _; simp [sortInsertDesc]
  | cons y ys ih =>
    intro hp
    rw [List.pairwise_cons] at hp
    by_cases hlt : x.score < y.score
    · simp only [sortInsertDesc, hlt, if_true]
      rw [List.pairwise_cons]
      constructor
      · intro z hz
        rcases mem_sortInsert.mp hz with hz | hz
        · subst hz; omega
        · exact hp.1 z hz
      · exact ih hp.2
    · simp only [sortInsertDesc, hlt, if_false]
      rw [List.pairwise_cons]
      constructor
      · intro z hz
        rcases List.mem_cons.mp hz with hz | hz
        · subst hz; omega
        · have := hp.1 z hz
          omega
      · rw [List.pairwise_cons]
        exact hp
  
lemma sortByScoreDesc_sorted : ∀ l : List ScoredSearchResult,
    (sortByScoreDesc l).Pairwise (fun a b => b.score ≤ a.score) := by
  intro l
  induction l with
  | nil => simp [sortByScoreDesc]
  | cons x xs ih => exact sortInsert_pairwise ih

lemma sortByScoreDesc_of_sorted : ∀ l : List ScoredSearchResult,
    l.Pairwise (fun a b => b.score ≤ a.score) → sortByScoreDesc l = l := by
  intro l
  induction l with
  | nil => intro _; rfl
  | cons x xs ih =>
    intro hp
    rw [List.pairwise_cons] at hp
    show sortInsertDesc x (sortByScoreDesc xs) = x :: xs
    rw [ih hp.2]
    cases xs with
    | nil => rfl
    | cons y ys =>
      have hle : y.score ≤ x.score := hp.1 y (List.mem_cons_self y ys)
      simp [sortInsertDesc, show ¬ (x.score < y.score) by omega]

lemma sort_stable_pair : ∀ (l : List ScoredSearchResult) (a b : ScoredSearchResult),
    b.score ≤ a.score → [a, b].Sublist l → [a, b].Sublist (sortByScoreDesc l) := by
  intro l
  induction l with
  | nil =>
    intro a b _ hsub
    simp at hsub
  | cons x xs ih =>
    intro a b hle hsub
    show [a, b].Sublist (sortInsertDesc x (sortByScoreDesc xs))
    obtain ⟨t1, t2, h1, h2, h3⟩ := sortInsert_split x (sortByScoreDesc xs)
    rw [h1]
    cases hsub with
    | cons _ h =>
      have hrec := ih a b hle h
      rw [h2] at hrec
      exact hrec.trans ((List.append_sublist_append_left t1).mpr (List.sublist_cons_self x t2))
    | cons₂ _ h =>
      have hbmem : b ∈ sortByScoreDesc xs := by
        have hbx : b ∈ xs := (List.singleton_sublist.mp h)
        exact ((sortByScoreDesc_perm xs).mem_iff).mpr hbx
      rw [h2] at hbmem
      have hb2 : b ∈ t2 := by
        rcases List.mem_append.mp hbmem with hmem | hmem
        · have := h3 b hmem
          omega
        · exact hmem
      have hab : [x, b].Sublist (x :: t2) := List.Sublist.cons₂ x (List.singleton_sublist.mpr hb2)
      exact hab.trans (List.sublist_append_right t1 (x :: t2))

lemma ranked_map_url_perm (env : JsEnv) (results : List WebSearchResultItem) (nowIso : String) :
    ((rankSearchResults env results nowIso).map (fun r => r.url)).Perm
      ((rankDedupGo results []).map (fun x => x.url)) := by
  unfold rankSearchResults
  have h1 : (rankAssignGo (sortByScoreDesc (rankScoreGo env (env.dateParse nowIso) (rankDedupGo results []) 0)) 0).map
        (fun r => r.url)
      = (sortByScoreDesc (rankScoreGo env (env.dateParse nowIso) (rankDedupGo results []) 0)).map (fun r => r.url) := by
    rw [show (fun (r : RankedSearchResult) => r.url)
        = (fun (s : ScoredSearchResult) => s.url) ∘ (fun (r : RankedSearchResult) => r.toScoredSearchResult) from rfl]
    rw [← List.map_map, rankAssignGo_map_toScored]
  rw [h1]
  have h2 := sortByScoreDesc_perm (rankScoreGo env (env.dateParse nowIso) (rankDedupGo results []) 0)
  have h3 := h2.map (fun (s : ScoredSearchResult) => s.url)
  refine h3.trans ?_
  rw [rankScoreGo_map_url]

lemma ranked_map_url_nodup (env : JsEnv) (results : List WebSearchResultItem) (nowIso : String) :
    ((rankSearchResults env results nowIso).map (fun r => r.url)).Nodup := by
  have hperm := ranked_map_url_perm env results nowIso
  exact hperm.symm.nodup (rankDedupGo_clean results []).2

end ClarityCheck
namespace ClarityCheck

/-- C4 (amended): the survivors are exactly the items with a non-empty
trimmed URL no earlier item shares, and each survivor is scored
max(0, 14 - index) + recencyBonus + domainBonus + min(5, floor(snippet
length / 120)) where index is the position in the surviving deduplicated
list (not the original input list); no input makes the ranker throw. -/
theorem c4_rank_score_amended (env : JsEnv) (results : List WebSearchResultItem) (nowIso : String) :
    rankDedupGo results [] = specDedup results
    ∧ ((rankSearchResults env results nowIso).map (fun r => r.toScoredSearchResult)).Perm
        ((List.enumFrom 0 (specDedup results)).map (fun p =>
          { toWebSearchResultItem := p.2
            score := specScore env (env.dateParse nowIso) p.2 p.1 })) := by
  refine ⟨rankDedup_eq_specDedup results, ?_⟩
  unfold rankSearchResults
  rw [rankAssignGo_map_toScored]
  have h2 := sortByScoreDesc_perm
    (rankScoreGo env (env.dateParse nowIso) (rankDedupGo results []) 0)
  refine h2.trans ?_
  rw [rankScoreGo_eq_enumFrom, rankDedup_eq_specDedup]

/-- C4 counterexample: with an empty-URL first item, the sole survivor is
scored 14 from its position in the deduplicated list, not 13 as the
claimed original-input index would give. -/
theorem c4_rank_score_counterexample :
    (rankSearchResults exampleEnv [exampleItemEmptyUrl, exampleItemA]
        "2026-01-01T00:00:00.000Z").map (fun r => r.score) = [14]
    ∧ specScore exampleEnv (exampleEnv.dateParse "2026-01-01T00:00:00.000Z") exampleItemA 1 = 13
    ∧ ¬ ((rankSearchResults exampleEnv [exampleItemEmptyUrl, exampleItemA]
          "2026-01-01T00:00:00.000Z").map (fun r => r.score)
        = [specScore exampleEnv (exampleEnv.dateParse "2026-01-01T00:00:00.000Z") exampleItemA 1]) := by
  refine ⟨by decide, by decide, by decide⟩

/-- C9: rank output is ordered by non-increasing score; rank fields are
the 1-based positions after sorting; equal-or-lower-scored pairs keep
their relative pre-sort order (stability); and on an already-trimmed,
URL-deduplicated input whose computed scores are non-increasing,
re-ranking preserves the input order. -/
theorem c9_rank_order_stability (env : JsEnv) (results : List WebSearchResultItem) (nowIso : String) :
    (rankSearchResults env results nowIso).Pairwise (fun a b => b.score ≤ a.score)
    ∧ (rankSearchResults env results nowIso).map (fun r => r.rank)
        = List.range' 1 (rankSearchResults env results nowIso).length
    ∧ (∀ a b : ScoredSearchResult, b.score ≤ a.score →
        [a, b].Sublist (rankScoreGo env (env.dateParse nowIso) (rankDedupGo results []) 0) →
        [a, b].Sublist ((rankSearchResults env results nowIso).map (fun r => r.toScoredSearchResult)))
    ∧ ((∀ r ∈ results, jsTrim r.url = r.url ∧ r.url.isEmpty = false) →
        (results.map (fun r => r.url)).Nodup →
        (rankScoreGo env (env.dateParse nowIso) results 0).Pairwise (fun a b => b.score ≤ a.score) →
        (rankSearchResults env results nowIso).map (fun r => r.toWebSearchResultItem) = results) := by
  refine ⟨?_, ?_, ?_, ?_⟩
  · have hs2 := sortByScoreDesc_sorted
      (rankScoreGo env (env.dateParse nowIso) (rankDedupGo results []) 0)
    unfold rankSearchResults
    have hmap : (rankAssignGo (sortByScoreDesc (rankScoreGo env (env.dateParse nowIso) (rankDedupGo results []) 0)) 0).map
          (fun r => r.toScoredSearchResult)
        = sortByScoreDesc (rankScoreGo env (env.dateParse nowIso) (rankDedupGo results []) 0) :=
      rankAssignGo_map_toScored _ 0
    rw [← hmap] at hs2
    rw [List.pairwise_map] at hs2
    exact hs2
  · unfold rankSearchResults
    rw [rankAssignGo_map_rank, rankAssignGo_length]
  · intro a b hle hsub
    unfold rankSearchResults
    rw [rankAssignGo_map_toScored]
    exact sort_stable_pair _ a b hle hsub
  · intro hclean hnodup hsorted
    have hded : rankDedupGo results [] = results :=
      rankDedupGo_of_clean results [] hclean hnodup (fun x _ => by simp)
    show (rankAssignGo (sortByScoreDesc (rankScoreGo env (env.dateParse nowIso) (rankDedupGo results []) 0)) 0).map
        (fun r => r.toWebSearchResultItem) = results
    rw [hded, sortByScoreDesc_of_sorted _ hsorted]
    have hmap : (rankAssignGo (rankScoreGo env (env.dateParse nowIso) results 0) 0).map
          (fun r => r.toWebSearchResultItem)
        = ((rankAssignGo (rankScoreGo env (env.dateParse nowIso) results 0) 0).map
            (fun r => r.toScoredSearchResult)).map (fun s => s.toWebSearchResultItem) := by
      rw [List.map_map]
      rfl
    rw [hmap, rankAssignGo_map_toScored, rankScoreGo_map_item]

/-- Witness for C9: a concrete two-item deduplicated input already in
score order is returned unchanged. -/
theorem c9_rank_order_stability_witness :
    (rankSearchResults exampleEnv [exampleItemA, exampleItemB]
        "2026-01-01T00:00:00.000Z").map (fun r => r.toWebSearchResultItem)
      = [exampleItemA, exampleItemB] := by
  refine (c9_rank_order_stability exampleEnv [exampleItemA, exampleItemB] "2026-01-01T00:00:00.000Z").2.2.2
    ?_ ?_ ?_
  · decide
  · decide
  · decide

end ClarityCheck
namespace ClarityCheck

lemma jsSetSize_of_nodup {l : List String} (h : l.Nodup) : jsSetSize l = l.length := by
  unfold jsSetSize
  rw [List.Nodup.dedup h]

lemma jsSetSize_take_of_nodup {l : List String} (h : l.Nodup) (n : Nat) :
    jsSetSize (l.take n) = min n l.length := by
  unfold jsSetSize
  rw [List.Nodup.dedup (List.Nodup.sublist (List.take_sublist n l) h), List.length_take]

/-- C2: sufficientEvidence holds exactly when at least 3 distinct ranked
URLs exist or at least 2 documents were fetched; when it is false, the
turn performs zero synthesis runner calls, persists exactly one runtime
state whose stage is research, and replies with the fixed
still-researching message. -/
theorem c2_sufficient_evidence_gate (env : JsEnv) (queryPlan : ProviderName × List String)
    (searchOutcome : String → Except String (List WebSearchResultItem))
    (fetchOutcome : String → Option String) (urlMatches : String → List String)
    (latestUserText nowIso : String) (runtime : DecisionRuntimeState)
    (synthOutcome : FallbackOutcome RecommendationObj)
    (g : GatherResult)
    (hg : gatherEvidence env queryPlan searchOutcome fetchOutcome urlMatches latestUserText nowIso
            = g) :
    (g.sufficientEvidence = true ↔
      (3 ≤ jsSetSize ((rankSearchResults env
          ((queryPlan.2.take 6).flatMap (fun q =>
            match searchOutcome q with
            | Except.ok result => result.take 6
            | Except.error _ => [])) nowIso).map (fun r => r.url))
        ∨ 2 ≤ g.fetchedCount))
    ∧ (g.sufficientEvidence = false →
        ∃ rt : DecisionRuntimeState,
          runResearchAndRecommendation g runtime nowIso synthOutcome
            = { persisted := [rt], synthCalls := 0
                result := Except.ok (g.queryProvider, stillResearchingText, rt) }
          ∧ rt.stage = DecisionStage.research) := by
  subst hg
  constructor
  · have hsuff : (gatherEvidence env queryPlan searchOutcome fetchOutcome urlMatches
        latestUserText nowIso).sufficientEvidence
        = (decide (3 ≤ jsSetSize (((rankSearchResults env
              ((queryPlan.2.take 6).flatMap (fun q =>
                match searchOutcome q with
                | Except.ok result => result.take 6
                | Except.error _ => [])) nowIso).take 8).map (fun item => item.url)))
           || decide (2 ≤ (gatherEvidence env queryPlan searchOutcome fetchOutcome urlMatches
                latestUserText nowIso).fetchedCount)) := rfl
    rw [hsuff, Bool.or_eq_true, decide_eq_true_eq, decide_eq_true_eq]
    have hnodup := ranked_map_url_nodup env
      ((queryPlan.2.take 6).flatMap (fun q =>
        match searchOutcome q with
        | Except.ok result => result.take 6
        | Except.error _ => [])) nowIso
    rw [List.map_take, jsSetSize_take_of_nodup hnodup 8, jsSetSize_of_nodup hnodup]
    constructor
    · rintro (h | h)
      · left; omega
      · right; exact h
    · rintro (h | h)
      · left; omega
      · right; exact h
  · intro hfalse
    refine ⟨normalizeRuntimeState
      (some { rawOfRuntime runtime with
                stage := some "research"
                research := some
                  { lastResearchAt := some nowIso
                    queries := some (gatherEvidence env queryPlan searchOutcome fetchOutcome
                      urlMatches latestUserText nowIso).queries } })
      none nowIso, ?_, rfl⟩
    unfold runResearchAndRecommendation
    rw [hfalse]
    rfl

/-- Witness for C2: a concrete gathering pass with 2 distinct ranked URLs
and 1 fetched document skips synthesis and stays in research. -/
theorem c2_sufficient_evidence_gate_witness :
    ∃ rt : DecisionRuntimeState,
      runResearchAndRecommendation
          (gatherEvidence exampleEnv (ProviderName.groq, ["q1"])
            (fun _ => Except.ok [exampleItemA, exampleItemB])
            (fun u => if u = "https://a.com/x" then some "doc" else none)
            (fun _ => []) "hello" "2026-01-01T00:00:00.000Z")
          { stage := DecisionStage.research, intake := {}, research := {} }
          "2026-01-01T00:00:00.000Z"
          { result := Except.error "no synth", attempts := 0, errors := [] }
        = { persisted := [rt], synthCalls := 0
            result := Except.ok (ProviderName.groq, stillResearchingText, rt) }
      ∧ rt.stage = DecisionStage.research := by
  exact (c2_sufficient_evidence_gate exampleEnv (ProviderName.groq, ["q1"])
    (fun _ => Except.ok [exampleItemA, exampleItemB])
    (fun u => if u = "https://a.com/x" then some "doc" else none)
    (fun _ => []) "hello" "2026-01-01T00:00:00.000Z"
    { stage := DecisionStage.research, intake := {}, research := {} }
    { result := Except.error "no synth", attempts := 0, errors := [] }
    _ rfl).2 (by decide)

end ClarityCheck
